import Mathlib

/-!
Verification model of the ChatLab-Python-Library core.

The Python source (src/chatlab) is shallowly embedded:

* Python/JSON values are the inductive `PyVal` (dicts keep insertion order as
  association lists; CPython dict equality ignores order, so `PyVal` values are
  only ever compared where both sides are built in the same key order).
* The dataclasses `ChatLabVersion`, `ChatMeta`, `ChatMember`, `ChatMessage`,
  `ChatSession` become structures with fields at their schema types.
  `ChatMessage._datetime` is omitted: it is `datetime.fromtimestamp(timestamp)`,
  a function of `timestamp` (and the local timezone), so it carries no extra
  state; its construction-time range check is modelled by `tsOK`.
* `datetime.fromtimestamp` / naive `datetime.timestamp()` depend on the local
  timezone; the timezone is modelled as a fixed offset `tz` (seconds east of
  UTC) threaded as an explicit parameter.  Calendar arithmetic is proleptic
  Gregorian via floor-division day/civil conversions.
* Fallible code returns `Except PyErr _`.  Reading a schema field whose value
  has the wrong Python type maps to `PyErr.typeError`: CPython would store the
  wrongly-typed value in the dataclass slot; that junk-typed fragment is
  outside this model and outside every claim, which quantify over well-typed
  data (witnesses discharge the well-typedness side conditions concretely).
-/

/-- A Python/JSON value.  `float` carries the exact decimal value as a
rational (no claim computes with floats; they only pass through). -/
inductive PyVal where
  | none : PyVal
  | bool (b : Bool) : PyVal
  | int (n : Int) : PyVal
  | float (q : ℚ) : PyVal
  | str (s : String) : PyVal
  | list (xs : List PyVal) : PyVal
  | dict (kvs : List (String × PyVal)) : PyVal

namespace PyVal

/-- Association-list lookup: first binding wins (CPython dicts have unique
keys, and every dict this model builds has unique keys). -/
def lookup (kvs : List (String × PyVal)) (k : String) : Option PyVal :=
  match kvs with
  | [] => Option.none
  | (k', v) :: rest => if k' = k then some v else lookup rest k

/-- Python `data.get(k)` on a value known to be a dict. -/
def dget (v : PyVal) (k : String) : Option PyVal :=
  match v with
  | dict kvs => lookup kvs k
  | _ => Option.none

def isDict (v : PyVal) : Bool :=
  match v with
  | dict _ => true
  | _ => false

end PyVal

/-- Python exceptions that this model distinguishes. -/
inductive PyErr where
  | valueError (msg : String) : PyErr
  | typeError : PyErr
  | attributeError : PyErr
  | overflowError : PyErr
deriving DecidableEq, Repr

/-- Python `data.get(k, dflt)` read at type `str` (see the header note on the
junk-typed fragment). -/
def getStrD (d : PyVal) (k : String) (dflt : String) : Except PyErr String :=
  match d.dget k with
  | Option.none => Except.ok dflt
  | some (PyVal.str s) => Except.ok s
  | some _ => Except.error PyErr.typeError

/-- Python `data.get(k, dflt)` read at type `int`. -/
def getIntD (d : PyVal) (k : String) (dflt : Int) : Except PyErr Int :=
  match d.dget k with
  | Option.none => Except.ok dflt
  | some (PyVal.int n) => Except.ok n
  | some _ => Except.error PyErr.typeError

/-- Python `data.get(k)` for an optional string field: an absent key and a
stored `None` both yield `None`. -/
def getOptStr (d : PyVal) (k : String) : Except PyErr (Option String) :=
  match d.dget k with
  | Option.none => Except.ok Option.none
  | some PyVal.none => Except.ok Option.none
  | some (PyVal.str s) => Except.ok (some s)
  | some _ => Except.error PyErr.typeError

/-- Python truthiness of an optional string (`if self.avatar:`):
true exactly when present and non-empty. -/
def truthyOptStr (v : Option String) : Bool :=
  match v with
  | Option.none => false
  | some s => s ≠ ""

/-!  Calendar model: proleptic Gregorian day/civil conversions with
floor division, after the standard `civil_from_days` / `days_from_civil`
algorithms. -/

/-- Civil date-time (year, month, day, hour, minute, second). -/
structure DateTime where
  year : Int
  month : Int
  day : Int
  hour : Int
  minute : Int
  second : Int
deriving DecidableEq, Repr

/-- Day number (days since 1970-01-01) to civil date. -/
def civilFromDays (z0 : Int) : Int × Int × Int :=
  let z := z0 + 719468
  let era := Int.fdiv z 146097
  let doe := z - era * 146097
  let yoe := (doe - doe / 1460 + doe / 36524 - doe / 146096) / 365
  let y := yoe + era * 400
  let doy := doe - (365 * yoe + yoe / 4 - yoe / 100)
  let mp := (5 * doy + 2) / 153
  let d := doy - (153 * mp + 2) / 5 + 1
  let m := mp + (if mp < 10 then 3 else -9)
  (if m ≤ 2 then y + 1 else y, m, d)

/-- Civil date to day number (days since 1970-01-01). -/
def daysFromCivil (y0 m d : Int) : Int :=
  let y := if m ≤ 2 then y0 - 1 else y0
  let era := Int.fdiv y 400
  let yoe := y - era * 400
  let mp := if 2 < m then m - 3 else m + 9
  let doy := (153 * mp + 2) / 5 + d - 1
  let doe := yoe * 365 + yoe / 4 - yoe / 100 + doy
  era * 146097 + doe - 719468

/-- Seconds since the Unix epoch (in some fixed timezone) to civil date-time. -/
def civilFromEpoch (t : Int) : DateTime :=
  let days := Int.fdiv t 86400
  let secs := t - days * 86400
  let (y, m, d) := civilFromDays days
  { year := y, month := m, day := d,
    hour := secs / 3600, minute := (secs % 3600) / 60, second := secs % 60 }

/-- Civil date-time to seconds since the Unix epoch (same fixed timezone). -/
def epochFromCivil (dt : DateTime) : Int :=
  daysFromCivil dt.year dt.month dt.day * 86400
    + dt.hour * 3600 + dt.minute * 60 + dt.second

/-- `datetime.fromtimestamp` accepts exactly the timestamps whose local civil
year lies in 1..9999 (`datetime.MINYEAR`/`MAXYEAR`); outside it raises.
`tz` is the fixed local-timezone offset in seconds east of UTC. -/
def tsOK (tz ts : Int) : Bool :=
  decide (daysFromCivil 1 1 1 * 86400 ≤ ts + tz
    ∧ ts + tz ≤ daysFromCivil 9999 12 31 * 86400 + 86399)

/-- Zero-padded decimal rendering to (at least) `w` digits. -/
def padNum (w : Nat) (n : Int) : String :=
  let s := toString n
  if s.length < w then String.mk (List.replicate (w - s.length) '0') ++ s else s

/-- `"%Y-%m-%d %H:%M:%S"` rendering of a local civil date-time, the format of
`ChatMessage.datetime_str`. -/
def renderDateTime (dt : DateTime) : String :=
  padNum 4 dt.year ++ "-" ++ padNum 2 dt.month ++ "-" ++ padNum 2 dt.day ++ " "
    ++ padNum 2 dt.hour ++ ":" ++ padNum 2 dt.minute ++ ":" ++ padNum 2 dt.second

/-!  The dataclasses of src/chatlab/models.py. -/

/-- `MessageType.to_string` of `MessageType.from_int`: codes 0..9 map to the
fixed label table, any other code falls back to TEXT and hence "text". -/
def typeLabel (t : Int) : String :=
  if t = 0 then "text" else if t = 1 then "image" else if t = 2 then "voice"
  else if t = 3 then "video" else if t = 4 then "file"
  else if t = 5 then "location" else if t = 6 then "link"
  else if t = 7 then "sticker" else if t = 8 then "system"
  else if t = 9 then "revoked" else "text"

structure ChatLabVersion where
  version : String
  exported_at : Int
  generator : String
deriving DecidableEq, Repr

namespace ChatLabVersion

def to_dict (v : ChatLabVersion) : PyVal :=
  PyVal.dict [("version", PyVal.str v.version),
    ("exportedAt", PyVal.int v.exported_at),
    ("generator", PyVal.str v.generator)]

def from_dict (data : PyVal) : Except PyErr ChatLabVersion :=
  if data.isDict then do
    let version ← getStrD data "version" "0.0.1"
    let exported_at ← getIntD data "exportedAt" 0
    let generator ← getStrD data "generator" "unknown"
    Except.ok { version := version, exported_at := exported_at, generator := generator }
  else Except.error PyErr.attributeError

end ChatLabVersion

structure ChatMeta where
  name : String
  platform : String
  type : String
  owner_id : String
  avatar : Option String := Option.none
  description : Option String := Option.none
deriving DecidableEq, Repr

namespace ChatMeta

def to_dict (m : ChatMeta) : PyVal :=
  PyVal.dict
    ([("name", PyVal.str m.name), ("platform", PyVal.str m.platform),
      ("type", PyVal.str m.type), ("ownerId", PyVal.str m.owner_id)]
      ++ (if truthyOptStr m.avatar then [("avatar", PyVal.str (m.avatar.getD ""))] else [])
      ++ (if truthyOptStr m.description then
            [("description", PyVal.str (m.description.getD ""))] else []))

def from_dict (data : PyVal) : Except PyErr ChatMeta :=
  if data.isDict then do
    let name ← getStrD data "name" "Unknown"
    let platform ← getStrD data "platform" "unknown"
    let type ← getStrD data "type" "private"
    let owner_id ← getStrD data "ownerId" ""
    let avatar ← getOptStr data "avatar"
    let description ← getOptStr data "description"
    Except.ok
      { name := name, platform := platform, type := type,
        owner_id := owner_id, avatar := avatar, description := description }
  else Except.error PyErr.attributeError

end ChatMeta

structure ChatMember where
  platform_id : String
  account_name : String
  role : Option String := Option.none
  avatar : Option String := Option.none
  remark : Option String := Option.none
deriving DecidableEq, Repr

namespace ChatMember

def to_dict (m : ChatMember) : PyVal :=
  PyVal.dict
    ([("platformId", PyVal.str m.platform_id),
      ("accountName", PyVal.str m.account_name)]
      ++ (if truthyOptStr m.role then [("role", PyVal.str (m.role.getD ""))] else [])
      ++ (if truthyOptStr m.avatar then [("avatar", PyVal.str (m.avatar.getD ""))] else [])
      ++ (if truthyOptStr m.remark then [("remark", PyVal.str (m.remark.getD ""))] else []))

def from_dict (data : PyVal) : Except PyErr ChatMember :=
  if data.isDict then do
    let platform_id ← getStrD data "platformId" ""
    let account_name ← getStrD data "accountName" ""
    let role ← getOptStr data "role"
    let avatar ← getOptStr data "avatar"
    let remark ← getOptStr data "remark"
    Except.ok
      { platform_id := platform_id, account_name := account_name,
        role := role, avatar := avatar, remark := remark }
  else Except.error PyErr.attributeError

end ChatMember

structure ChatMessage where
  sender : String
  account_name : String
  timestamp : Int
  type : Int
  content : String
  platform_message_id : String
  reply_to : Option String := Option.none
deriving DecidableEq, Repr

namespace ChatMessage

/-- `ChatMessage.__post_init__` computes `datetime.fromtimestamp(timestamp)`,
which raises when the timestamp is outside the `datetime` range; constructing
a `ChatMessage` is modelled by this range-checked constructor. -/
def mkChecked (tz : Int) (m : ChatMessage) : Except PyErr ChatMessage :=
  if tsOK tz m.timestamp then Except.ok m else Except.error PyErr.overflowError

/-- The `datetime_str` property: local-time rendering of the timestamp. -/
def datetime_str (tz : Int) (m : ChatMessage) : String :=
  renderDateTime (civilFromEpoch (m.timestamp + tz))

/-- `message_type.to_string()` of this message's raw type code. -/
def typeName (m : ChatMessage) : String := typeLabel m.type

def to_dict (m : ChatMessage) : PyVal :=
  PyVal.dict
    ([("sender", PyVal.str m.sender), ("accountName", PyVal.str m.account_name),
      ("timestamp", PyVal.int m.timestamp), ("type", PyVal.int m.type),
      ("content", PyVal.str m.content),
      ("platformMessageId", PyVal.str m.platform_message_id)]
      ++ (if truthyOptStr m.reply_to then
            [("replyTo", PyVal.str (m.reply_to.getD ""))] else []))

def from_dict (tz : Int) (data : PyVal) : Except PyErr ChatMessage :=
  if data.isDict then do
    let sender ← getStrD data "sender" ""
    let account_name ← getStrD data "accountName" ""
    let timestamp ← getIntD data "timestamp" 0
    let type ← getIntD data "type" 0
    let content ← getStrD data "content" ""
    let platform_message_id ← getStrD data "platformMessageId" ""
    let reply_to ← getOptStr data "replyTo"
    mkChecked tz
      { sender := sender, account_name := account_name,
        timestamp := timestamp, type := type, content := content,
        platform_message_id := platform_message_id, reply_to := reply_to }
  else Except.error PyErr.attributeError

end ChatMessage

/-- The timestamp key order used by `self.messages.sort(key=lambda x: x.timestamp)`. -/
def tsLE (a b : ChatMessage) : Bool := decide (a.timestamp ≤ b.timestamp)

structure ChatSession where
  chatlab : ChatLabVersion
  meta : ChatMeta
  members : List ChatMember
  messages : List ChatMessage
deriving DecidableEq, Repr

namespace ChatSession

/-- `ChatSession(...)` followed by `__post_init__`, which stably sorts the
messages by timestamp (CPython's `list.sort` is a stable sort; any stable
sort by the same key computes the same list, here `List.mergeSort`). -/
def mkSession (chatlab : ChatLabVersion) (meta : ChatMeta)
    (members : List ChatMember) (messages : List ChatMessage) : ChatSession :=
  { chatlab := chatlab, meta := meta, members := members,
    messages := messages.mergeSort tsLE }

def to_dict (s : ChatSession) : PyVal :=
  PyVal.dict [("chatlab", s.chatlab.to_dict), ("meta", s.meta.to_dict),
    ("members", PyVal.list (s.members.map ChatMember.to_dict)),
    ("messages", PyVal.list (s.messages.map ChatMessage.to_dict))]

/-- Python `[f(m) for m in xs]` where `f` may raise. -/
def mapE {α β : Type} (f : α → Except PyErr β) : List α → Except PyErr (List β)
  | [] => Except.ok []
  | x :: xs => do
    let y ← f x
    let ys ← mapE f xs
    Except.ok (y :: ys)

/-- `data.get(k, [])` followed by iteration; a non-list value is iterated by
CPython only if iterable, which is outside the modelled fragment. -/
def getListD (d : PyVal) (k : String) : Except PyErr (List PyVal) :=
  match d.dget k with
  | Option.none => Except.ok []
  | some (PyVal.list xs) => Except.ok xs
  | some _ => Except.error PyErr.typeError

/-- `data.get(k, {})`. -/
def getDictD (d : PyVal) (k : String) : PyVal :=
  match d.dget k with
  | Option.none => PyVal.dict []
  | some v => v

def from_dict (tz : Int) (data : PyVal) : Except PyErr ChatSession :=
  if data.isDict then do
    let chatlab ← ChatLabVersion.from_dict (getDictD data "chatlab")
    let meta ← ChatMeta.from_dict (getDictD data "meta")
    let memberObjs ← getListD data "members"
    let members ← mapE ChatMember.from_dict memberObjs
    let messageObjs ← getListD data "messages"
    let messages ← mapE (ChatMessage.from_dict tz) messageObjs
    Except.ok (mkSession chatlab meta members messages)
  else Except.error PyErr.attributeError

end ChatSession

/-!  Query/analytics layer of `ChatSession` (src/chatlab/models.py)
and the helper `split_messages_by_time` (src/chatlab/utils/helpers.py). -/

/-- Python `str.lower()`; Lean's `toLower` lowers exactly the ASCII letters,
which agrees with CPython on ASCII and on case-less scripts (such as CJK) —
the fragment every claim lives in. -/
def pyLower (s : String) : String := String.mk (s.toList.map Char.toLower)

/-- Python `needle in haystack` on strings: contiguous substring test. -/
def pyInStr (needle haystack : String) : Bool :=
  decide (List.IsInfix needle.toList haystack.toList)

namespace ChatSession

def get_messages_by_sender (s : ChatSession) (sender_id : String) : List ChatMessage :=
  s.messages.filter (fun m => m.sender = sender_id)

def get_messages_by_name (s : ChatSession) (name : String) : List ChatMessage :=
  s.messages.filter (fun m => m.account_name = name)

def get_messages_by_date (tz : Int) (s : ChatSession) (date_str : String) : List ChatMessage :=
  s.messages.filter (fun m => (m.datetime_str tz).startsWith date_str)

def get_messages_by_type (s : ChatSession) (msg_type : Int) : List ChatMessage :=
  s.messages.filter (fun m => m.type = msg_type)

def get_messages_by_keyword (s : ChatSession) (keyword : String)
    (case_sensitive : Bool) : List ChatMessage :=
  if !case_sensitive then
    s.messages.filter (fun m => pyInStr (pyLower keyword) (pyLower m.content))
  else
    s.messages.filter (fun m => pyInStr keyword m.content)

def get_message_by_id (s : ChatSession) (msg_id : String) : Option ChatMessage :=
  s.messages.find? (fun m => m.platform_message_id = msg_id)

end ChatSession

/-- `d[k] = d.get(k, 0) + 1` on an insertion-ordered dict. -/
def bumpCount (k : String) : List (String × Nat) → List (String × Nat)
  | [] => [(k, 1)]
  | (k', n) :: rest =>
    if k' = k then (k', n + 1) :: rest else (k', n) :: bumpCount k rest

/-- Python `sorted` key order on strings (code-point lexicographic). -/
def strKeyLE (a b : String × Nat) : Bool := !(decide (b.1 < a.1))

namespace ChatSession

/-- `get_timeline`: per-day message counts, returned in ascending date order
(`dict(sorted(timeline.items()))`). -/
def get_timeline (tz : Int) (s : ChatSession) : List (String × Nat) :=
  (s.messages.foldl (fun acc m => bumpCount ((m.datetime_str tz).take 10) acc) []).mergeSort strKeyLE

end ChatSession

/-- One entry of `get_sender_stats`. -/
structure SenderStat where
  account_name : String
  count : Nat
  first_message : String
  last_message : String
deriving DecidableEq, Repr

/-- One message's update of the sender-stats dict: a first-seen sender is
appended with count 1 and first = last = this message's time; a known sender
gets its count bumped and its last-message time overwritten. -/
def senderStep (tz : Int) (m : ChatMessage) :
    List (String × SenderStat) → List (String × SenderStat)
  | [] =>
    [(m.sender,
      { account_name := m.account_name, count := 1,
        first_message := m.datetime_str tz, last_message := m.datetime_str tz })]
  | (k, st) :: rest =>
    if k = m.sender then
      (k, { st with count := st.count + 1, last_message := m.datetime_str tz }) :: rest
    else (k, st) :: senderStep tz m rest

namespace ChatSession

def get_sender_stats (tz : Int) (s : ChatSession) : List (String × SenderStat) :=
  s.messages.foldl (fun acc m => senderStep tz m acc) []

end ChatSession

/-- The dict returned by `get_statistics`; `sender_stats` is `none` exactly
when the key is absent (the zero-message branch omits it). -/
structure Statistics where
  total_messages : Nat
  unique_senders : Nat
  date_range : Option (String × String)
  message_types : List (String × Nat)
  timeline : List (String × Nat)
  sender_stats : Option (List (String × SenderStat))
deriving DecidableEq, Repr

namespace ChatSession

def get_statistics (tz : Int) (s : ChatSession) : Statistics :=
  match s.messages with
  | [] =>
    { total_messages := 0, unique_senders := 0, date_range := Option.none,
      message_types := [], timeline := [], sender_stats := Option.none }
  | m0 :: _ =>
    { total_messages := s.messages.length,
      unique_senders := (s.messages.map (fun m => m.sender)).dedup.length,
      date_range := some (m0.datetime_str tz, (s.messages.getLast?.getD m0).datetime_str tz),
      message_types := s.messages.foldl (fun acc m => bumpCount m.typeName acc) [],
      timeline := s.get_timeline tz,
      sender_stats := some (s.get_sender_stats tz) }

end ChatSession

/-- The split test of the conversation segmenters:
`(curr.timestamp - prev.timestamp) / 60 > max_gap_minutes` with Python true
division, modelled exactly over ℚ (IEEE rounding of the quotient could only
differ for gaps of magnitude ≥ 2⁵³ seconds, far outside the `datetime` range
every constructible message lies in). -/
def gapGT (g : Int) (prev curr : ChatMessage) : Bool :=
  decide ((g : ℚ) < ((curr.timestamp : ℚ) - (prev.timestamp : ℚ)) / 60)

/-- The loop of `ChatSession.get_conversation_threads`, carrying the previous
message and the (non-empty) current thread. -/
def threadsAux (g : Int) (prev : ChatMessage) (cur : List ChatMessage) :
    List ChatMessage → List (List ChatMessage)
  | [] => [cur]
  | m :: rest =>
    if gapGT g prev m then cur :: threadsAux g m [m] rest
    else threadsAux g m (cur ++ [m]) rest

namespace ChatSession

def get_conversation_threads (s : ChatSession) (max_gap_minutes : Int) :
    List (List ChatMessage) :=
  match s.messages with
  | [] => []
  | m :: rest => threadsAux max_gap_minutes m [m] rest

end ChatSession

/-- The loop of `split_messages_by_time` (utils/helpers.py), textually the
same algorithm as `threadsAux`. -/
def splitAux (g : Int) (prev : ChatMessage) (cur : List ChatMessage) :
    List ChatMessage → List (List ChatMessage)
  | [] => [cur]
  | m :: rest =>
    if gapGT g prev m then cur :: splitAux g m [m] rest
    else splitAux g m (cur ++ [m]) rest

def split_messages_by_time (messages : List ChatMessage) (max_gap_minutes : Int) :
    List (List ChatMessage) :=
  match messages with
  | [] => []
  | m :: rest => splitAux max_gap_minutes m [m] rest

/-!  String parsers (src/chatlab/parsers/json_parser.py).

`json.loads` and `ast.literal_eval` are CPython standard library; they are
modelled here as recursive-descent parsers over `List Char`:

* `json_loads`: RFC 8259 JSON (double-quoted strings with the JSON escapes,
  `true`/`false`/`null`, numbers with optional fraction/exponent and no
  leading zeros, no trailing commas).  Astral `\uXXXX` surrogate pairs and
  non-finite overflow of huge exponents are outside the modelled fragment
  (no claim touches them).
* `literal_eval`: the Python literal dialect the source relies on:
  single- or double-quoted strings (unknown escapes kept verbatim, as CPython
  does), `True`/`False`/`None`, signed int/float literals, lists and dicts
  with optional trailing commas.  Dict keys are restricted to string literals
  and tuples/sets/bytes/complex/triple-quoted strings are outside the
  modelled fragment: the chatlab payloads (and every claim) use only
  string-keyed dicts of scalars and lists.

Whitespace is the ASCII whitespace set (all claim inputs are ASCII/CJK text
where CPython's Unicode whitespace classes agree with it). -/

def isJsonWs (c : Char) : Bool := c = ' ' ∨ c = '\t' ∨ c = '\n' ∨ c = '\x0d'

def isPyWs (c : Char) : Bool :=
  c = ' ' ∨ c = '\t' ∨ c = '\n' ∨ c = '\x0d' ∨ c = '\x0b' ∨ c = '\x0c'

/-- Python `str.strip()` (on the ASCII whitespace fragment). -/
def pyStrip (s : String) : String :=
  String.mk (((s.toList.dropWhile isPyWs).reverse.dropWhile isPyWs).reverse)

/-- Python `str.splitlines()` restricted to the `\n`, `\r`, `\r\n`
terminators (the only ones claim inputs use); no trailing empty line. -/
def pySplitlinesAux (acc : List Char) : List Char → List (List Char)
  | [] => [acc.reverse]
  | '\x0d' :: '\n' :: rest =>
    acc.reverse :: (if rest.isEmpty then [] else pySplitlinesAux [] rest)
  | '\x0d' :: rest =>
    acc.reverse :: (if rest.isEmpty then [] else pySplitlinesAux [] rest)
  | '\n' :: rest =>
    acc.reverse :: (if rest.isEmpty then [] else pySplitlinesAux [] rest)
  | c :: rest => pySplitlinesAux (c :: acc) rest

def pySplitlines (s : String) : List (List Char) :=
  match s.toList with
  | [] => []
  | cs => pySplitlinesAux [] cs

def isDigitCh (c : Char) : Bool := '0' ≤ c ∧ c ≤ '9'

def digitsToNat (ds : List Char) : Nat :=
  ds.foldl (fun a c => a * 10 + (c.toNat - 48)) 0

def hexDigitVal (c : Char) : Option Nat :=
  if '0' ≤ c ∧ c ≤ '9' then some (c.toNat - 48)
  else if 'a' ≤ c ∧ c ≤ 'f' then some (c.toNat - 87)
  else if 'A' ≤ c ∧ c ≤ 'F' then some (c.toNat - 55)
  else Option.none

/-- The numeric value `(intpart.fracpart) * 10^exp` as an exact rational. -/
def decimalValue (ip fp : List Char) (ex : Int) : ℚ :=
  let base : ℚ := (digitsToNat ip : ℚ) + (digitsToNat fp : ℚ) / ((10 : ℚ) ^ fp.length)
  if 0 ≤ ex then base * (10 : ℚ) ^ ex.toNat else base / (10 : ℚ) ^ (-ex).toNat

/-- JSON string body (after the opening quote), with the JSON escapes. -/
def jStringAux (acc : List Char) : List Char → Option (String × List Char)
  | [] => Option.none
  | '"' :: rest => some (String.mk acc.reverse, rest)
  | '\\' :: '"' :: rest => jStringAux ('"' :: acc) rest
  | '\\' :: '\\' :: rest => jStringAux ('\\' :: acc) rest
  | '\\' :: '/' :: rest => jStringAux ('/' :: acc) rest
  | '\\' :: 'b' :: rest => jStringAux ('\x08' :: acc) rest
  | '\\' :: 'f' :: rest => jStringAux ('\x0c' :: acc) rest
  | '\\' :: 'n' :: rest => jStringAux ('\n' :: acc) rest
  | '\\' :: 'r' :: rest => jStringAux ('\x0d' :: acc) rest
  | '\\' :: 't' :: rest => jStringAux ('\t' :: acc) rest
  | '\\' :: 'u' :: h1 :: h2 :: h3 :: h4 :: rest =>
    match hexDigitVal h1, hexDigitVal h2, hexDigitVal h3, hexDigitVal h4 with
    | some a, some b, some c, some d =>
      jStringAux (Char.ofNat (((a * 16 + b) * 16 + c) * 16 + d) :: acc) rest
    | _, _, _, _ => Option.none
  | '\\' :: _ => Option.none
  | c :: rest => if c.toNat < 32 then Option.none else jStringAux (c :: acc) rest

/-- JSON number at the head of the input (after an optional minus handled by
the caller): maximal digit runs, leading-zero rule, optional fraction and
exponent; an integer literal yields `PyVal.int`, otherwise `PyVal.float`. -/
def jNumberAbs (cs : List Char) : Option (PyVal × List Char) :=
  let ip := cs.takeWhile isDigitCh
  let r1 := cs.dropWhile isDigitCh
  if ip.isEmpty then Option.none
  else if 1 < ip.length ∧ ip.headD '0' = '0' then Option.none
  else
    let (fp, r2) :=
      match r1 with
      | '.' :: rest =>
        (rest.takeWhile isDigitCh, rest.dropWhile isDigitCh)
      | _ => ([], r1)
    let fracFailed := (match r1 with | '.' :: _ => fp.isEmpty | _ => false)
    if fracFailed then Option.none
    else
      let hasFrac := (match r1 with | '.' :: _ => true | _ => false)
      let expParse : Option (Option Int × List Char) :=
        match r2 with
        | 'e' :: rest => jExpTail rest
        | 'E' :: rest => jExpTail rest
        | _ => some (Option.none, r2)
      match expParse with
      | Option.none => Option.none
      | some (exOpt, r3) =>
        match hasFrac, exOpt with
        | false, Option.none => some (PyVal.int (digitsToNat ip : Int), r3)
        | _, _ =>
          some (PyVal.float (decimalValue ip fp (exOpt.getD 0)), r3)
where
  /-- exponent tail after `e`/`E`: optional sign then digits. -/
  jExpTail (cs : List Char) : Option (Option Int × List Char) :=
    let (sgn, cs') : Int × List Char :=
      match cs with
      | '-' :: rest => (-1, rest)
      | '+' :: rest => (1, rest)
      | _ => (1, cs)
    let ds := cs'.takeWhile isDigitCh
    if ds.isEmpty then Option.none
    else some (some (sgn * (digitsToNat ds : Int)), cs'.dropWhile isDigitCh)

mutual

/-- A JSON value (leading whitespace skipped here), returning the rest. -/
def jValue (fuel : Nat) (cs0 : List Char) : Option (PyVal × List Char) :=
  match fuel with
  | 0 => Option.none
  | fuel + 1 =>
    let cs := cs0.dropWhile isJsonWs
    match cs with
    | 't' :: 'r' :: 'u' :: 'e' :: rest => some (PyVal.bool true, rest)
    | 'f' :: 'a' :: 'l' :: 's' :: 'e' :: rest => some (PyVal.bool false, rest)
    | 'n' :: 'u' :: 'l' :: 'l' :: rest => some (PyVal.none, rest)
    | '"' :: rest =>
      match jStringAux [] rest with
      | some (s, rest') => some (PyVal.str s, rest')
      | Option.none => Option.none
    | '[' :: rest =>
      match rest.dropWhile isJsonWs with
      | ']' :: rest' => some (PyVal.list [], rest')
      | _ =>
        match jElems fuel rest with
        | some (vs, rest') => some (PyVal.list vs, rest')
        | Option.none => Option.none
    | '\x7b' :: rest =>
      match rest.dropWhile isJsonWs with
      | '\x7d' :: rest' => some (PyVal.dict [], rest')
      | _ =>
        match jMembers fuel rest with
        | some (kvs, rest') => some (PyVal.dict kvs, rest')
        | Option.none => Option.none
    | '-' :: rest =>
      match jNumberAbs rest with
      | some (PyVal.int n, rest') => some (PyVal.int (-n), rest')
      | some (PyVal.float q, rest') => some (PyVal.float (-q), rest')
      | _ => Option.none
    | _ => jNumberAbs cs

/-- Comma-separated JSON array elements up to the closing bracket. -/
def jElems (fuel : Nat) (cs : List Char) : Option (List PyVal × List Char) :=
  match fuel with
  | 0 => Option.none
  | fuel + 1 =>
    match jValue fuel cs with
    | Option.none => Option.none
    | some (v, rest) =>
      match rest.dropWhile isJsonWs with
      | ',' :: rest' =>
        match jElems fuel rest' with
        | some (vs, rest'') => some (v :: vs, rest'')
        | Option.none => Option.none
      | ']' :: rest' => some ([v], rest')
      | _ => Option.none

/-- Comma-separated JSON object members up to the closing brace. -/
def jMembers (fuel : Nat) (cs : List Char) : Option (List (String × PyVal) × List Char) :=
  match fuel with
  | 0 => Option.none
  | fuel + 1 =>
    match cs.dropWhile isJsonWs with
    | '"' :: rest =>
      match jStringAux [] rest with
      | Option.none => Option.none
      | some (k, rest1) =>
        match rest1.dropWhile isJsonWs with
        | ':' :: rest2 =>
          match jValue fuel rest2 with
          | Option.none => Option.none
          | some (v, rest3) =>
            match rest3.dropWhile isJsonWs with
            | ',' :: rest4 =>
              match jMembers fuel rest4 with
              | some (kvs, rest5) => some ((k, v) :: kvs, rest5)
              | Option.none => Option.none
            | '\x7d' :: rest4 => some ([(k, v)], rest4)
            | _ => Option.none
        | _ => Option.none
    | _ => Option.none

end

/-- `json.loads`: a single JSON value with surrounding whitespace, the whole
input consumed; `Option.none` is `json.JSONDecodeError`. -/
def json_loads (s : String) : Option PyVal :=
  let cs := s.toList
  match jValue (8 * (cs.length + 1)) cs with
  | some (v, rest) => if (rest.dropWhile isJsonWs).isEmpty then some v else Option.none
  | Option.none => Option.none

def isOctalCh (c : Char) : Bool := '0' ≤ c ∧ c ≤ '7'

/-- Python string-literal body for quote character `q` (single or double),
with the CPython escapes; an unknown escape keeps the backslash verbatim,
a raw newline ends the literal unterminated (SyntaxError). -/
def pStringAux (q : Char) (fuel : Nat) (acc : List Char) (cs : List Char) :
    Option (String × List Char) :=
  match fuel with
  | 0 => Option.none
  | fuel + 1 =>
    match cs with
    | [] => Option.none
    | '\\' :: '\\' :: rest => pStringAux q fuel ('\\' :: acc) rest
    | '\\' :: '\'' :: rest => pStringAux q fuel ('\'' :: acc) rest
    | '\\' :: '"' :: rest => pStringAux q fuel ('"' :: acc) rest
    | '\\' :: 'n' :: rest => pStringAux q fuel ('\n' :: acc) rest
    | '\\' :: 't' :: rest => pStringAux q fuel ('\t' :: acc) rest
    | '\\' :: 'r' :: rest => pStringAux q fuel ('\x0d' :: acc) rest
    | '\\' :: 'b' :: rest => pStringAux q fuel ('\x08' :: acc) rest
    | '\\' :: 'f' :: rest => pStringAux q fuel ('\x0c' :: acc) rest
    | '\\' :: 'v' :: rest => pStringAux q fuel ('\x0b' :: acc) rest
    | '\\' :: '\n' :: rest => pStringAux q fuel acc rest
    | '\\' :: 'x' :: h1 :: h2 :: rest =>
      match hexDigitVal h1, hexDigitVal h2 with
      | some a, some b => pStringAux q fuel (Char.ofNat (a * 16 + b) :: acc) rest
      | _, _ => Option.none
    | '\\' :: 'u' :: h1 :: h2 :: h3 :: h4 :: rest =>
      match hexDigitVal h1, hexDigitVal h2, hexDigitVal h3, hexDigitVal h4 with
      | some a, some b, some c, some d =>
        pStringAux q fuel (Char.ofNat (((a * 16 + b) * 16 + c) * 16 + d) :: acc) rest
      | _, _, _, _ => Option.none
    | '\\' :: c :: rest =>
      if isOctalCh c then
        let more := (rest.takeWhile isOctalCh).take 2
        pStringAux q fuel
          (Char.ofNat ((c :: more).foldl (fun a d => a * 8 + (d.toNat - 48)) 0) :: acc)
          (rest.drop more.length)
      else pStringAux q fuel (c :: '\\' :: acc) rest
    | '\\' :: [] => Option.none
    | c :: rest =>
      if c = q then some (String.mk acc.reverse, rest)
      else if c = '\n' ∨ c = '\x0d' then Option.none
      else pStringAux q fuel (c :: acc) rest

/-- Python numeric literal at the head of the input (sign handled by the
caller): int (leading zeros only when the value is zero) or float
(`1.`, `.5`, exponent forms allowed).  Hex/octal/binary ints, underscores
and complex literals are outside the modelled fragment. -/
def pNumberAbs (cs : List Char) : Option (PyVal × List Char) :=
  match cs with
  | '.' :: rest =>
    let fp := rest.takeWhile isDigitCh
    if fp.isEmpty then Option.none
    else
      match pExp (rest.dropWhile isDigitCh) with
      | Option.none => Option.none
      | some (ex, r2) => some (PyVal.float (decimalValue [] fp (ex.getD 0)), r2)
  | _ =>
    let ip := cs.takeWhile isDigitCh
    let r1 := cs.dropWhile isDigitCh
    if ip.isEmpty then Option.none
    else
      match r1 with
      | '.' :: rest =>
        let fp := rest.takeWhile isDigitCh
        match pExp (rest.dropWhile isDigitCh) with
        | Option.none => Option.none
        | some (ex, r2) => some (PyVal.float (decimalValue ip fp (ex.getD 0)), r2)
      | _ =>
        match pExp r1 with
        | Option.none => Option.none
        | some (Option.none, _) =>
          if 1 < ip.length ∧ ip.headD '0' = '0' ∧ ip.any (fun c => c ≠ '0') then
            Option.none
          else some (PyVal.int (digitsToNat ip : Int), r1)
        | some (some ex, r2) => some (PyVal.float (decimalValue ip [] ex), r2)
where
  /-- optional exponent: `e`/`E`, optional sign, digits. -/
  pExp (cs : List Char) : Option (Option Int × List Char) :=
    match cs with
    | 'e' :: rest => pExpTail rest
    | 'E' :: rest => pExpTail rest
    | _ => some (Option.none, cs)
  pExpTail (cs : List Char) : Option (Option Int × List Char) :=
    let (sgn, cs') : Int × List Char :=
      match cs with
      | '-' :: rest => (-1, rest)
      | '+' :: rest => (1, rest)
      | _ => (1, cs)
    let ds := cs'.takeWhile isDigitCh
    if ds.isEmpty then Option.none
    else some (some (sgn * (digitsToNat ds : Int)), cs'.dropWhile isDigitCh)

mutual

/-- A Python literal (leading whitespace skipped here), returning the rest. -/
def pValue (fuel : Nat) (cs0 : List Char) : Option (PyVal × List Char) :=
  match fuel with
  | 0 => Option.none
  | fuel + 1 =>
    let cs := cs0.dropWhile isPyWs
    match cs with
    | 'N' :: 'o' :: 'n' :: 'e' :: rest => some (PyVal.none, rest)
    | 'T' :: 'r' :: 'u' :: 'e' :: rest => some (PyVal.bool true, rest)
    | 'F' :: 'a' :: 'l' :: 's' :: 'e' :: rest => some (PyVal.bool false, rest)
    | '\'' :: rest =>
      match pStringAux '\'' (rest.length + 1) [] rest with
      | some (s, rest') => some (PyVal.str s, rest')
      | Option.none => Option.none
    | '"' :: rest =>
      match pStringAux '"' (rest.length + 1) [] rest with
      | some (s, rest') => some (PyVal.str s, rest')
      | Option.none => Option.none
    | '[' :: rest =>
      match rest.dropWhile isPyWs with
      | ']' :: rest' => some (PyVal.list [], rest')
      | _ =>
        match pElems fuel rest with
        | some (vs, rest') => some (PyVal.list vs, rest')
        | Option.none => Option.none
    | '\x7b' :: rest =>
      match rest.dropWhile isPyWs with
      | '\x7d' :: rest' => some (PyVal.dict [], rest')
      | _ =>
        match pMembers fuel rest with
        | some (kvs, rest') => some (PyVal.dict kvs, rest')
        | Option.none => Option.none
    | '-' :: rest =>
      match pNumberAbs (rest.dropWhile isPyWs) with
      | some (PyVal.int n, rest') => some (PyVal.int (-n), rest')
      | some (PyVal.float x, rest') => some (PyVal.float (-x), rest')
      | _ => Option.none
    | '+' :: rest => pNumberAbs (rest.dropWhile isPyWs)
    | _ => pNumberAbs cs

/-- Python list elements up to `]`, allowing a trailing comma. -/
def pElems (fuel : Nat) (cs : List Char) : Option (List PyVal × List Char) :=
  match fuel with
  | 0 => Option.none
  | fuel + 1 =>
    match pValue fuel cs with
    | Option.none => Option.none
    | some (v, rest) =>
      match rest.dropWhile isPyWs with
      | ',' :: rest' =>
        match rest'.dropWhile isPyWs with
        | ']' :: rest'' => some ([v], rest'')
        | _ =>
          match pElems fuel rest' with
          | some (vs, rest'') => some (v :: vs, rest'')
          | Option.none => Option.none
      | ']' :: rest' => some ([v], rest')
      | _ => Option.none

/-- Python dict members (string-literal keys) up to the closing brace,
allowing a trailing comma. -/
def pMembers (fuel : Nat) (cs : List Char) : Option (List (String × PyVal) × List Char) :=
  match fuel with
  | 0 => Option.none
  | fuel + 1 =>
    let csk := cs.dropWhile isPyWs
    let keyParse : Option (String × List Char) :=
      match csk with
      | '\'' :: rest => pStringAux '\'' (rest.length + 1) [] rest
      | '"' :: rest => pStringAux '"' (rest.length + 1) [] rest
      | _ => Option.none
    match keyParse with
    | Option.none => Option.none
    | some (k, rest1) =>
      match rest1.dropWhile isPyWs with
      | ':' :: rest2 =>
        match pValue fuel rest2 with
        | Option.none => Option.none
        | some (v, rest3) =>
          match rest3.dropWhile isPyWs with
          | ',' :: rest4 =>
            match rest4.dropWhile isPyWs with
            | '\x7d' :: rest5 => some ([(k, v)], rest5)
            | _ =>
              match pMembers fuel rest4 with
              | some (kvs, rest5) => some ((k, v) :: kvs, rest5)
              | Option.none => Option.none
          | '\x7d' :: rest4 => some ([(k, v)], rest4)
          | _ => Option.none
      | _ => Option.none

end

/-- `ast.literal_eval` on the modelled literal dialect: one literal with
surrounding whitespace, the whole input consumed; `Option.none` is the
`(ValueError, SyntaxError)` failure the source catches. -/
def literal_eval (s : String) : Option PyVal :=
  let cs := s.toList
  match pValue (8 * (cs.length + 1)) cs with
  | some (v, rest) => if (rest.dropWhile isPyWs).isEmpty then some v else Option.none
  | Option.none => Option.none

/-- `re.sub(r',(\s*[}\]])', r'\1', text)`: each comma directly followed by
optional whitespace and a closing brace/bracket is deleted; scanning resumes
after the matched bracket. -/
def fixAux (fuel : Nat) (cs : List Char) : List Char :=
  match fuel with
  | 0 => cs
  | fuel + 1 =>
    match cs with
    | [] => []
    | ',' :: rest =>
      let ws := rest.takeWhile isPyWs
      let rem := rest.dropWhile isPyWs
      (match rem with
       | '\x7d' :: r2 => ws ++ '\x7d' :: fixAux fuel r2
       | ']' :: r2 => ws ++ ']' :: fixAux fuel r2
       | _ => ',' :: fixAux fuel rest)
    | c :: rest => c :: fixAux fuel rest

/-- `JSONParser._try_fix_and_parse`: strip trailing commas, then retry the
relaxed-literal parse (the bare `except` makes any failure `None`). -/
def _try_fix_and_parse (text : String) : Option PyVal :=
  literal_eval (String.mk (fixAux (text.length + 1) text.toList))

/-- `data is None` sentinel: a strategy that successfully parses the Python
value `None` is indistinguishable from a failed strategy in the source's
`if data is None` chain. -/
def noneCollapse (v : Option PyVal) : Option PyVal :=
  match v with
  | some PyVal.none => Option.none
  | x => x

/-- The three-strategy chain of `JSONParser.parse` (lines 46-64): strict
JSON, then `ast.literal_eval`, then the trailing-comma repair plus retry,
each collapsed through the `is None` sentinel. -/
def parseChain (text : String) : Option PyVal :=
  match noneCollapse (json_loads text) with
  | some d => some d
  | Option.none =>
    match noneCollapse (literal_eval text) with
    | some d => some d
    | Option.none => noneCollapse (_try_fix_and_parse text)

/-- The `FormatError` of `JSONParser.parse` (a `ValueError` in the source). -/
def parseFormatErrorMsg : String :=
  "无法解析输入格式，请确保是有效的 JSON 或 Python 字典格式"

namespace JSONParser

/-- `JSONParser.parse` on text input (the path branch is file I/O glue
outside the model: `source` here is the text itself). -/
def parse (tz : Int) (source : String) : Except PyErr ChatSession :=
  let text := pyStrip source
  match parseChain text with
  | Option.none => Except.error (PyErr.valueError parseFormatErrorMsg)
  | some d => ChatSession.from_dict tz d

end JSONParser

/-- One line of the `parse_jsonl` loop: blank lines and lines that are not
strict JSON are skipped; a JSON object line is dispatched on its `_type`
tag (unknown tags ignored); a JSON non-object line hits `obj.get` and
raises `AttributeError`. -/
def jsonlStep (st : Option PyVal × List PyVal × List PyVal) (line : List Char) :
    Except PyErr (Option PyVal × List PyVal × List PyVal) :=
  let l := pyStrip (String.mk line)
  if l.isEmpty then Except.ok st
  else
    match json_loads l with
    | Option.none => Except.ok st
    | some obj =>
      if obj.isDict then
        match obj.dget "_type" with
        | some (PyVal.str t) =>
          if t = "header" then Except.ok (some obj, st.2.1, st.2.2)
          else if t = "member" then Except.ok (st.1, st.2.1 ++ [obj], st.2.2)
          else if t = "message" then Except.ok (st.1, st.2.1, st.2.2 ++ [obj])
          else Except.ok st
        | _ => Except.ok st
      else Except.error PyErr.attributeError

/-- The `FormatError` of `parse_jsonl` when no header line was seen. -/
def jsonlHeaderErrorMsg : String := "JSONL 文件缺少 header 行"

namespace JSONParser

/-- `JSONParser.parse_jsonl` on text input.  The `if not header` truthiness
test coincides with `Option.isNone`: a recorded header is a dict holding at
least its `_type` key, hence truthy. -/
def parse_jsonl (tz : Int) (source : String) : Except PyErr ChatSession := do
  let lines := pySplitlines (pyStrip source)
  let (header, members, messages) ← lines.foldlM jsonlStep (Option.none, [], [])
  match header with
  | Option.none => Except.error (PyErr.valueError jsonlHeaderErrorMsg)
  | some h =>
    ChatSession.from_dict tz
      (PyVal.dict [("chatlab", ChatSession.getDictD h "chatlab"),
        ("meta", ChatSession.getDictD h "meta"),
        ("members", PyVal.list members),
        ("messages", PyVal.list messages)])

end JSONParser

/-!  CSV parser (src/chatlab/parsers/csv_parser.py).

The `csv.DictReader` text layer is standard-library I/O: the model takes the
already-split rows (association lists header-name → cell text, in file
order), which is the state of the source right after `rows = list(reader)`.
`int(...)` and `float(...)` are modelled exactly on decimal literals
(CPython's underscore digit separators, hex forms, and the IEEE rounding of
floats above 2⁵³ are outside the modelled fragment; `inf`/`nan`, whose
`int()` raises, fold into parse failure since the bare `except` catches
both).  `datetime.strptime` is modelled after CPython's `_strptime` regex
table for the six formats the source uses, with the `datetime` constructor's
day-of-month and year validation. -/

/-- Python `int(str)`: optional whitespace, sign, nonempty digit run. -/
def pyIntParse (s : String) : Option Int :=
  let cs := s.toList.dropWhile isPyWs
  let (sgn, cs') : Int × List Char :=
    match cs with
    | '-' :: rest => (-1, rest)
    | '+' :: rest => (1, rest)
    | _ => (1, cs)
  let ds := cs'.takeWhile isDigitCh
  let rest := cs'.dropWhile isDigitCh
  if ds.isEmpty then Option.none
  else if (rest.dropWhile isPyWs).isEmpty then some (sgn * (digitsToNat ds : Int))
  else Option.none

/-- Python `float(str)` on finite decimal literals, split into sign, integer
digits, fraction digits and exponent (the exact value is
`sign * (ip.fp) * 10^ex`; kept in parts so that the truncation below is
integer arithmetic, which the kernel evaluates). -/
def pyFloatParts (s : String) : Option (Int × List Char × List Char × Int) :=
  let cs := s.toList.dropWhile isPyWs
  let (sgn, cs') : Int × List Char :=
    match cs with
    | '-' :: rest => (-1, rest)
    | '+' :: rest => (1, rest)
    | _ => (1, cs)
  let body : Option ((List Char × List Char × Int) × List Char) :=
    match cs' with
    | '.' :: rest =>
      let fp := rest.takeWhile isDigitCh
      if fp.isEmpty then Option.none
      else
        match pNumberAbs.pExp (rest.dropWhile isDigitCh) with
        | Option.none => Option.none
        | some (ex, r) => some (([], fp, ex.getD 0), r)
    | _ =>
      let ip := cs'.takeWhile isDigitCh
      let r1 := cs'.dropWhile isDigitCh
      if ip.isEmpty then Option.none
      else
        let (fp, r2) :=
          match r1 with
          | '.' :: rest => (rest.takeWhile isDigitCh, rest.dropWhile isDigitCh)
          | _ => ([], r1)
        match pNumberAbs.pExp r2 with
        | Option.none => Option.none
        | some (ex, r) => some ((ip, fp, ex.getD 0), r)
  match body with
  | Option.none => Option.none
  | some (parts, rest) =>
    if (rest.dropWhile isPyWs).isEmpty then some (sgn, parts) else Option.none

/-- `int(float(s))`: truncation toward zero of `±(ip.fp) * 10^ex`: apply the
sign after truncating the magnitude (for the non-negative magnitude,
`Nat` division is exactly truncation). -/
def intFloat (s : String) : Option Int :=
  (pyFloatParts s).map (fun p =>
    let ds := digitsToNat (p.2.1 ++ p.2.2.1)
    let k := p.2.2.2 - (p.2.2.1.length : Int)
    let mag : Int :=
      if 0 ≤ k then (ds : Int) * (10 : Int) ^ k.toNat
      else ((ds / 10 ^ (-k).toNat : Nat) : Int)
    p.1 * mag)

/-- A `strptime` format token: a literal character or one of the numeric
directives the source's format list uses. -/
inductive FmtTok where
  | lit (c : Char) : FmtTok
  | dY : FmtTok
  | dm : FmtTok
  | dd : FmtTok
  | dH : FmtTok
  | dM : FmtTok
  | dS : FmtTok
deriving DecidableEq, Repr

def digitVal (c : Char) : Int := (c.toNat : Int) - 48

/-- The regex alternatives of one directive, in CPython `_strptime` order
(`%Y` = four digits; `%m` = `1[0-2]|0[1-9]|[1-9]`;
`%d` = `3[01]|[12]\d|0[1-9]|[1-9]`; `%H` = `2[0-3]|[0-1]\d|\d`;
`%M` = `[0-5]\d|\d`; `%S` = `6[0-1]|[0-5]\d|\d`). -/
def dirAlts : FmtTok → List Char → List (Int × List Char)
  | FmtTok.lit c, c' :: rest => if c' = c then [(0, rest)] else []
  | FmtTok.lit _, [] => []
  | FmtTok.dY, a :: b :: c :: d :: rest =>
    if isDigitCh a ∧ isDigitCh b ∧ isDigitCh c ∧ isDigitCh d then
      [(digitVal a * 1000 + digitVal b * 100 + digitVal c * 10 + digitVal d, rest)]
    else []
  | FmtTok.dY, _ => []
  | FmtTok.dm, d1 :: d2 :: rest =>
    (if d1 = '1' ∧ '0' ≤ d2 ∧ d2 ≤ '2' then [(10 + digitVal d2, rest)] else [])
      ++ (if d1 = '0' ∧ '1' ≤ d2 ∧ d2 ≤ '9' then [(digitVal d2, rest)] else [])
      ++ (if '1' ≤ d1 ∧ d1 ≤ '9' then [(digitVal d1, d2 :: rest)] else [])
  | FmtTok.dm, [d1] => if '1' ≤ d1 ∧ d1 ≤ '9' then [(digitVal d1, [])] else []
  | FmtTok.dm, [] => []
  | FmtTok.dd, d1 :: d2 :: rest =>
    (if d1 = '3' ∧ ('0' = d2 ∨ d2 = '1') then [(30 + digitVal d2, rest)] else [])
      ++ (if ('1' = d1 ∨ d1 = '2') ∧ isDigitCh d2 then
            [(digitVal d1 * 10 + digitVal d2, rest)] else [])
      ++ (if d1 = '0' ∧ '1' ≤ d2 ∧ d2 ≤ '9' then [(digitVal d2, rest)] else [])
      ++ (if '1' ≤ d1 ∧ d1 ≤ '9' then [(digitVal d1, d2 :: rest)] else [])
  | FmtTok.dd, [d1] => if '1' ≤ d1 ∧ d1 ≤ '9' then [(digitVal d1, [])] else []
  | FmtTok.dd, [] => []
  | FmtTok.dH, d1 :: d2 :: rest =>
    (if d1 = '2' ∧ '0' ≤ d2 ∧ d2 ≤ '3' then [(20 + digitVal d2, rest)] else [])
      ++ (if ('0' = d1 ∨ d1 = '1') ∧ isDigitCh d2 then
            [(digitVal d1 * 10 + digitVal d2, rest)] else [])
      ++ (if isDigitCh d1 then [(digitVal d1, d2 :: rest)] else [])
  | FmtTok.dH, [d1] => if isDigitCh d1 then [(digitVal d1, [])] else []
  | FmtTok.dH, [] => []
  | FmtTok.dM, d1 :: d2 :: rest =>
    (if '0' ≤ d1 ∧ d1 ≤ '5' ∧ isDigitCh d2 then
      [(digitVal d1 * 10 + digitVal d2, rest)] else [])
      ++ (if isDigitCh d1 then [(digitVal d1, d2 :: rest)] else [])
  | FmtTok.dM, [d1] => if isDigitCh d1 then [(digitVal d1, [])] else []
  | FmtTok.dM, [] => []
  | FmtTok.dS, d1 :: d2 :: rest =>
    (if d1 = '6' ∧ ('0' = d2 ∨ d2 = '1') then [(60 + digitVal d2, rest)] else [])
      ++ (if '0' ≤ d1 ∧ d1 ≤ '5' ∧ isDigitCh d2 then
            [(digitVal d1 * 10 + digitVal d2, rest)] else [])
      ++ (if isDigitCh d1 then [(digitVal d1, d2 :: rest)] else [])
  | FmtTok.dS, [d1] => if isDigitCh d1 then [(digitVal d1, [])] else []
  | FmtTok.dS, [] => []

def firstSome {α β : Type} (f : α → Option β) : List α → Option β
  | [] => Option.none
  | x :: xs =>
    match f x with
    | some y => some y
    | Option.none => firstSome f xs

/-- Backtracking match of a whole format against the whole input, collecting
directive values.  (For the source's six formats, whose directives are
separated by literal delimiters, this coincides with CPython's leftmost
regex match followed by the full-consumption check.) -/
def matchFmt : List FmtTok → List Char → Option (List (FmtTok × Int))
  | [], [] => some []
  | [], _ :: _ => Option.none
  | tok :: toks, cs =>
    firstSome
      (fun (vr : Int × List Char) =>
        match matchFmt toks vr.2 with
        | some assigns => some ((tok, vr.1) :: assigns)
        | Option.none => Option.none)
      (dirAlts tok cs)

def applyTok (dt : DateTime) : FmtTok × Int → DateTime
  | (FmtTok.lit _, _) => dt
  | (FmtTok.dY, v) => { dt with year := v }
  | (FmtTok.dm, v) => { dt with month := v }
  | (FmtTok.dd, v) => { dt with day := v }
  | (FmtTok.dH, v) => { dt with hour := v }
  | (FmtTok.dM, v) => { dt with minute := v }
  | (FmtTok.dS, v) => { dt with second := v }

def isLeapYear (y : Int) : Bool :=
  y % 4 = 0 ∧ (y % 100 ≠ 0 ∨ y % 400 = 0)

def daysInMonth (y m : Int) : Int :=
  if m = 2 then (if isLeapYear y then 29 else 28)
  else if m = 4 ∨ m = 6 ∨ m = 9 ∨ m = 11 then 30
  else 31

/-- `datetime.strptime(s, fmt)` for the modelled directives: regex match,
`_strptime` defaults (1900-01-01 00:00:00), then the `datetime` constructor's
validation.  The constructor requires year 1..9999, day within the month, and
second ≤ 59: the `%S` regex alternatives accept the leap seconds 60/61 (kept
for `time.struct_time`), but `datetime(*args)` raises on them, so
`strptime("...:60", ...)` fails.  The remaining constructor bounds (month
1..12, hour ≤ 23, minute ≤ 59, year ≤ 9999) are already forced by the
regex alternatives. -/
def strptime (fmt : List FmtTok) (s : String) : Option DateTime :=
  match matchFmt fmt s.toList with
  | Option.none => Option.none
  | some assigns =>
    let dt := assigns.foldl applyTok
      { year := 1900, month := 1, day := 1, hour := 0, minute := 0, second := 0 }
    if 1 ≤ dt.year ∧ dt.day ≤ daysInMonth dt.year dt.month ∧ dt.second ≤ 59 then
      some dt
    else Option.none

/-- Naive `datetime.timestamp()` under the fixed local offset `tz`. -/
def pyTimestamp (tz : Int) (dt : DateTime) : Int := epochFromCivil dt - tz

/-- The fixed format list of `CSVParser._parse_timestamp`, in source order. -/
def csvFormats : List (List FmtTok) :=
  [[FmtTok.dY, FmtTok.lit '-', FmtTok.dm, FmtTok.lit '-', FmtTok.dd, FmtTok.lit ' ',
    FmtTok.dH, FmtTok.lit ':', FmtTok.dM, FmtTok.lit ':', FmtTok.dS],
   [FmtTok.dY, FmtTok.lit '/', FmtTok.dm, FmtTok.lit '/', FmtTok.dd, FmtTok.lit ' ',
    FmtTok.dH, FmtTok.lit ':', FmtTok.dM, FmtTok.lit ':', FmtTok.dS],
   [FmtTok.dd, FmtTok.lit '/', FmtTok.dm, FmtTok.lit '/', FmtTok.dY, FmtTok.lit ' ',
    FmtTok.dH, FmtTok.lit ':', FmtTok.dM, FmtTok.lit ':', FmtTok.dS],
   [FmtTok.dY, FmtTok.lit '-', FmtTok.dm, FmtTok.lit '-', FmtTok.dd],
   [FmtTok.dH, FmtTok.lit ':', FmtTok.dM, FmtTok.lit ':', FmtTok.dS],
   [FmtTok.dY, FmtTok.lit '年', FmtTok.dm, FmtTok.lit '月', FmtTok.dd, FmtTok.lit '日',
    FmtTok.lit ' ', FmtTok.dH, FmtTok.lit ':', FmtTok.dM]]

namespace CSVParser

/-- `CSVParser._parse_timestamp`: epoch number first, then the format list in
order, first success wins; `Option.none` is the final `raise ValueError`. -/
def _parse_timestamp (tz : Int) (ts_str : String) : Option Int :=
  let s := pyStrip ts_str
  match intFloat s with
  | some n => some n
  | Option.none =>
    firstSome (fun fmt => (strptime fmt s).map (pyTimestamp tz)) csvFormats

/-- `CSVParser.COLUMN_MAPPINGS`, in source order. -/
def COLUMN_MAPPINGS : List (String × List String) :=
  [("time", ["time", "timestamp", "日期", "时间", "Time", "Timestamp"]),
   ("sender", ["sender", "sender_id", "发送者", "用户", "Sender", "From"]),
   ("content", ["content", "message", "内容", "消息", "Content", "Message"]),
   ("name", ["name", "account_name", "昵称", "Name", "SenderName"]),
   ("type", ["type", "msg_type", "类型", "Type"])]

/-- `CSVParser._detect_columns` starting from a fresh (empty) column map. -/
def _detect_columns (headers : List String) : List (String × String) :=
  let headers_lower := headers.map (fun h => pyStrip (pyLower h))
  COLUMN_MAPPINGS.foldl
    (fun acc (std : String × List String) =>
      match std.2.find? (fun v => headers_lower.contains (pyStrip (pyLower v))) with
      | some v =>
        acc ++ [(std.1, (headers.getD (headers_lower.indexOf (pyStrip (pyLower v))) ""))]
      | Option.none => acc)
    []

/-- String-valued association-list lookup (`dict.get`). -/
def cget (kvs : List (String × String)) (k : String) : Option String :=
  (kvs.find? (fun kv => kv.1 = k)).map (fun kv => kv.2)

/-- `CSVParser._parse_row`: only the timestamp parse is guarded by
`try/except`; a non-empty non-integer type cell raises `ValueError` out of
the row parse, and message construction range-checks the timestamp. -/
def _parse_row (tz : Int) (cmap : List (String × String))
    (row : List (String × String)) (idx : Nat) : Except PyErr ChatMessage := do
  let time_col := (cget cmap "time").getD "time"
  let timestamp_str := (cget row time_col).getD ""
  let timestamp : Int :=
    match _parse_timestamp tz timestamp_str with
    | some t => t
    | Option.none => (idx : Int)
  let sender_col := (cget cmap "sender").getD "sender"
  let sender := (cget row sender_col).getD "unknown"
  let name_col := (cget cmap "name").getD sender_col
  let account_name := (cget row name_col).getD sender
  let content_col := (cget cmap "content").getD "content"
  let content := (cget row content_col).getD ""
  let type_col := (cget cmap "type").getD "type"
  let type_val : Except PyErr Int :=
    match cget row type_col with
    | Option.none => Except.ok 0
    | some v =>
      if v = "" then Except.ok 0
      else
        match pyIntParse v with
        | some n => Except.ok n
        | Option.none =>
          Except.error (PyErr.valueError ("invalid literal for int: " ++ v))
  let tv ← type_val
  ChatMessage.mkChecked tz
    { sender := sender, account_name := account_name, timestamp := timestamp,
      type := tv, content := content,
      platform_message_id := "csv_" ++ toString idx, reply_to := Option.none }

/-- Indexed effectful map, mirroring `for idx, row in enumerate(rows)`. -/
def mapIdxE {α β : Type} (f : Nat → α → Except PyErr β) :
    Nat → List α → Except PyErr (List β)
  | _, [] => Except.ok []
  | i, x :: xs => do
    let y ← f i x
    let ys ← mapIdxE f (i + 1) xs
    Except.ok (y :: ys)

/-- The member-collection loop: first display name seen per distinct sender,
in order of first appearance. -/
def collectMembers (acc : List (String × String)) : List ChatMessage → List (String × String)
  | [] => acc
  | m :: rest =>
    if (acc.find? (fun kv => kv.1 = m.sender)).isSome then collectMembers acc rest
    else collectMembers (acc ++ [(m.sender, m.account_name)]) rest

/-- `CSVParser.parse` from the split rows.  `now` is
`int(datetime.now().timestamp())`, an environment input. -/
def parse (tz now : Int) (rows : List (List (String × String)))
    (platform chat_name chat_type owner_id : String) : Except PyErr ChatSession := do
  match rows with
  | [] => Except.error (PyErr.valueError "CSV 文件为空")
  | r0 :: _ =>
    let cmap := _detect_columns (r0.map Prod.fst)
    let messages ← mapIdxE (fun idx row => _parse_row tz cmap row idx) 0 rows
    let members := (collectMembers [] messages).map
      (fun kv => ({ platform_id := kv.1, account_name := kv.2 } : ChatMember))
    Except.ok (ChatSession.mkSession
      { version := "0.0.1", exported_at := now, generator := "chatlab-csv-parser" }
      { name := chat_name, platform := platform, type := chat_type,
        owner_id := owner_id }
      members messages)

end CSVParser

/-!  Statement-level definitions for the claims: the spec-side predicates the
claims quantify with, and concrete fixtures for examples, witnesses and
counterexamples.  Fixture sessions are written with their (already sorted)
message lists in place; each claim needing canonicity ties its fixture back
to `ChatSession.mkSession`. -/

/-- The boundary relation between consecutive threads: the gap from the last
message of one thread to the first message of the next exceeds the
threshold. -/
def threadBoundary (g : Int) (th1 th2 : List ChatMessage) : Prop :=
  ∀ a ∈ th1.getLast?, ∀ b ∈ th2.head?, gapGT g a b = true

/-- An optional string field that the encoding does not lose: absent or
non-empty (the `if field:` emission drops `""`). -/
def optStrOK (v : Option String) : Prop := v ≠ some ""

def ChatMeta.optOK (m : ChatMeta) : Prop :=
  optStrOK m.avatar ∧ optStrOK m.description

def ChatMember.optOK (mem : ChatMember) : Prop :=
  optStrOK mem.role ∧ optStrOK mem.avatar ∧ optStrOK mem.remark

def ChatMessage.optOK (m : ChatMessage) : Prop := optStrOK m.reply_to

def ChatSession.optOK (s : ChatSession) : Prop :=
  s.meta.optOK ∧ (∀ mem ∈ s.members, mem.optOK) ∧ (∀ m ∈ s.messages, m.optOK)

/-- Total of the per-sender message counts. -/
def statTotal (l : List (String × SenderStat)) : Nat :=
  (l.map (fun kv => kv.2.count)).sum

/-- The object a JSON-Lines line contributes under a given `_type` tag:
`some` exactly when the stripped line is strict JSON whose `_type` equals
the tag. -/
def taggedAs (tag : String) (l : List Char) : Option PyVal :=
  match json_loads (pyStrip (String.mk l)) with
  | some obj =>
    match obj.dget "_type" with
    | some (PyVal.str t) => if t = tag then some obj else Option.none
    | _ => Option.none
  | Option.none => Option.none

/-!  Concrete fixtures. -/

def exVer : ChatLabVersion := { version := "0.0.1", exported_at := 7, generator := "test" }

def exMeta : ChatMeta := { name := "chat", platform := "p", type := "private", owner_id := "o" }

def mkTestMsg (sender content : String) (t : Int) : ChatMessage :=
  { sender := sender, account_name := sender, timestamp := t, type := 0,
    content := content, platform_message_id := "", reply_to := Option.none }

def exMsg (t : Int) : ChatMessage := mkTestMsg "u" "" t

def exSession (ts : List Int) : ChatSession :=
  { chatlab := exVer, meta := exMeta, members := [], messages := ts.map exMsg }

/-- Fixture for the keyword-search claim. -/
def kwSession : ChatSession :=
  { chatlab := exVer, meta := exMeta, members := [],
    messages := [mkTestMsg "u1" "今天天气不错" 1, mkTestMsg "u2" "hello" 2] }

/-- Fixture for the statistics claim: three messages, two distinct senders. -/
def statSession : ChatSession :=
  { chatlab := exVer, meta := exMeta, members := [],
    messages := [mkTestMsg "u1" "a" 1, mkTestMsg "u1" "b" 2, mkTestMsg "u2" "c" 3] }

/-- A canonical session whose `meta.avatar` holds the empty string. -/
def metaEmptyAvatar : ChatMeta :=
  { name := "chat", platform := "p", type := "private", owner_id := "o",
    avatar := some "" }

def sessEmptyAvatar : ChatSession :=
  { chatlab := exVer, meta := metaEmptyAvatar, members := [], messages := [] }

/-- What the round trip actually returns for `sessEmptyAvatar`: the avatar
normalized away to `None`. -/
def sessEmptyAvatarRT : ChatSession :=
  ChatSession.mkSession exVer { metaEmptyAvatar with avatar := Option.none } [] []

/-- A round-trippable witness session: one member and one message with all
optional fields set non-empty. -/
def witMember : ChatMember :=
  { platform_id := "u1", account_name := "Alice", role := some "admin",
    avatar := Option.none, remark := some "r" }

def witMessage : ChatMessage :=
  { sender := "u1", account_name := "Alice", timestamp := 1770985500, type := 1,
    content := "hi", platform_message_id := "m1", reply_to := some "m0" }

def witSession : ChatSession :=
  { chatlab := exVer, meta := exMeta, members := [witMember], messages := [witMessage] }

/-- The single-quoted / `True` fixture of the relaxed-parse claim. -/
def exLitText : String := "\x7b\'a\': 1, \'b\': True\x7d"

/-- Its strict-JSON counterpart. -/
def exJsonText : String := "\x7b\"a\": 1, \"b\": true\x7d"

/-!  JSON-Lines fixtures. -/

def jlHeaderLine : String :=
  "\x7b\"_type\": \"header\", \"chatlab\": \x7b\"version\": \"0.0.1\", \"exportedAt\": 7, \"generator\": \"test\"\x7d, \"meta\": \x7b\"name\": \"chat\", \"platform\": \"p\", \"type\": \"private\", \"ownerId\": \"o\"\x7d\x7d"

def jlMemberLine : String :=
  "\x7b\"_type\": \"member\", \"platformId\": \"u1\", \"accountName\": \"Alice\"\x7d"

def jlMessageLine : String :=
  "\x7b\"_type\": \"message\", \"sender\": \"u1\", \"accountName\": \"Alice\", \"timestamp\": 100, \"type\": 0, \"content\": \"hi\", \"platformMessageId\": \"m1\"\x7d"

/-- Well-formed JSONL document with one broken (non-JSON) line. -/
def jlGoodDoc : String :=
  jlHeaderLine ++ "\n" ++ "not json at all" ++ "\n" ++ jlMemberLine ++ "\n" ++ jlMessageLine

/-- JSONL document whose first line is valid strict JSON but not an object. -/
def jlNonObjectDoc : String := "42\n" ++ jlHeaderLine ++ "\n" ++ jlMessageLine

/-!  CSV fixtures. -/

/-- A row whose `type` cell is non-empty and not an integer literal. -/
def csvRowBadType : List (String × String) :=
  [("time", "100"), ("sender", "u1"), ("content", "x"), ("type", "abc")]

/-- A row with a parseable epoch time and an empty type cell. -/
def csvRowGood : List (String × String) :=
  [("time", "200"), ("sender", "u2"), ("content", "y"), ("type", "")]

/-- The column map for the plain `time, sender, content, type` header. -/
def csvCmapFull : List (String × String) :=
  CSVParser._detect_columns ["time", "sender", "content", "type"]

theorem tsLE_trans (a b c : ChatMessage) (h1 : tsLE a b) (h2 : tsLE b c) :
    tsLE a c := by
  simp only [tsLE, decide_eq_true_eq] at *
  omega

theorem tsLE_total (a b : ChatMessage) : tsLE a b || tsLE b a := by
  simp only [tsLE]
  by_cases h : a.timestamp ≤ b.timestamp
  · simp [h]
  · simp [h]
    omega

theorem mkSession_messages (cl : ChatLabVersion) (mt : ChatMeta)
    (mems : List ChatMember) (msgs : List ChatMessage) :
    (ChatSession.mkSession cl mt mems msgs).messages = msgs.mergeSort tsLE := rfl

theorem mkSession_messages_of_sorted (cl : ChatLabVersion) (mt : ChatMeta)
    (mems : List ChatMember) (msgs : List ChatMessage)
    (h : msgs.Pairwise (fun a b => a.timestamp ≤ b.timestamp)) :
    (ChatSession.mkSession cl mt mems msgs).messages = msgs := by
  rw [mkSession_messages]
  apply List.mergeSort_of_sorted
  exact h.imp (by intro a b hab; simpa [tsLE] using hab)

/-- C2: every constructed session (whatever the order of the list passed in)
has consecutive messages in ascending timestamp order, and the messages at
each fixed timestamp keep their original input order (`list.sort` with the
timestamp key is stable). -/
theorem constructed_session_sorted_and_stable (cl : ChatLabVersion)
    (mt : ChatMeta) (mems : List ChatMember) (msgs : List ChatMessage) :
    List.Chain' (fun a b => a.timestamp ≤ b.timestamp)
      (ChatSession.mkSession cl mt mems msgs).messages
    ∧ ∀ t : Int,
      (ChatSession.mkSession cl mt mems msgs).messages.filter
          (fun m => m.timestamp == t)
        = msgs.filter (fun m => m.timestamp == t) := by
  constructor
  · have h := List.sorted_mergeSort tsLE_trans tsLE_total msgs
    have h2 : (msgs.mergeSort tsLE).Pairwise (fun a b => a.timestamp ≤ b.timestamp) :=
      h.imp (by intro a b hab; simpa [tsLE] using hab)
    rw [mkSession_messages]
    exact h2.chain'
  · intro t
    rw [mkSession_messages]
    have hsub0 : List.Sublist (msgs.filter (fun m => m.timestamp == t)) msgs :=
      List.filter_sublist msgs
    have hpw : (msgs.filter (fun m => m.timestamp == t)).Pairwise (fun a b => tsLE a b) := by
      apply List.pairwise_of_forall_mem_list
      intro a ha b hb
      have ha' := (List.mem_filter.mp ha).2
      have hb' := (List.mem_filter.mp hb).2
      simp only [beq_iff_eq] at ha' hb'
      simp [tsLE, ha', hb']
    have hsub : List.Sublist (msgs.filter (fun m => m.timestamp == t))
        (msgs.mergeSort tsLE) :=
      List.sublist_mergeSort tsLE_trans tsLE_total hpw hsub0
    have hsub2 := hsub.filter (fun m => m.timestamp == t)
    have idem : (msgs.filter (fun m => m.timestamp == t)).filter (fun m => m.timestamp == t)
        = msgs.filter (fun m => m.timestamp == t) := by
      apply List.filter_eq_self.mpr
      intro a ha
      exact (List.mem_filter.mp ha).2
    rw [idem] at hsub2
    have hlen : ((msgs.mergeSort tsLE).filter (fun m => m.timestamp == t)).length
        = (msgs.filter (fun m => m.timestamp == t)).length :=
      ((List.mergeSort_perm msgs tsLE).filter _).length_eq
    exact (hsub2.eq_of_length hlen.symm).symm

/-!  Conversation-thread lemmas. -/

theorem threadsAux_eq_splitAux (g : Int) :
    ∀ (rest : List ChatMessage) (prev : ChatMessage) (cur : List ChatMessage),
      threadsAux g prev cur rest = splitAux g prev cur rest := by
  intro rest
  induction rest with
  | nil => intro prev cur; rfl
  | cons m rest ih =>
    intro prev cur
    rw [threadsAux, splitAux]
    by_cases h : gapGT g prev m
    · simp [h, ih]
    · simp [h, ih]

theorem threadsAux_join (g : Int) :
    ∀ (rest : List ChatMessage) (prev : ChatMessage) (cur : List ChatMessage),
      (threadsAux g prev cur rest).flatten = cur ++ rest := by
  intro rest
  induction rest with
  | nil => intro prev cur; simp [threadsAux]
  | cons m rest ih =>
    intro prev cur
    rw [threadsAux]
    by_cases h : gapGT g prev m
    · simp [h, ih]
    · simp [h, ih]

theorem threadsAux_ne_nil (g : Int) :
    ∀ (rest : List ChatMessage) (prev : ChatMessage) (cur : List ChatMessage),
      cur ≠ [] → ∀ th ∈ threadsAux g prev cur rest, th ≠ [] := by
  intro rest
  induction rest with
  | nil =>
    intro prev cur hcur th hth
    simp [threadsAux] at hth
    subst hth
    exact hcur
  | cons m rest ih =>
    intro prev cur hcur th hth
    rw [threadsAux] at hth
    by_cases h : gapGT g prev m
    · simp [h] at hth
      rcases hth with h1 | h2
      · subst h1; exact hcur
      · exact ih m [m] (by simp) th h2
    · simp [h] at hth
      exact ih m (cur ++ [m]) (by simp) th hth

theorem threadsAux_first (g : Int) :
    ∀ (rest : List ChatMessage) (prev : ChatMessage) (cur : List ChatMessage),
      ∃ th' tl, threadsAux g prev cur rest = (cur ++ th') :: tl := by
  intro rest
  induction rest with
  | nil =>
    intro prev cur
    exact ⟨[], [], by simp [threadsAux]⟩
  | cons m rest ih =>
    intro prev cur
    rw [threadsAux]
    by_cases h : gapGT g prev m
    · exact ⟨[], threadsAux g m [m] rest, by simp [h]⟩
    · obtain ⟨th', tl, heq⟩ := ih m (cur ++ [m])
      exact ⟨[m] ++ th', tl, by simp [h, heq]⟩

theorem threadsAux_chain_within (g : Int) :
    ∀ (rest : List ChatMessage) (prev : ChatMessage) (cur : List ChatMessage),
      cur.getLast? = some prev →
      List.Chain' (fun a b => gapGT g a b = false) cur →
      ∀ th ∈ threadsAux g prev cur rest,
        List.Chain' (fun a b => gapGT g a b = false) th := by
  intro rest
  induction rest with
  | nil =>
    intro prev cur _ hchain th hth
    simp [threadsAux] at hth
    subst hth
    exact hchain
  | cons m rest ih =>
    intro prev cur hlast hchain th hth
    rw [threadsAux] at hth
    by_cases h : gapGT g prev m
    · simp [h] at hth
      rcases hth with h1 | h2
      · subst h1; exact hchain
      · exact ih m [m] (by simp) (by simp) th h2
    · simp [h] at hth
      apply ih m (cur ++ [m]) (by simp) ?_ th hth
      apply List.Chain'.append hchain (by simp)
      intro x hx y hy
      rw [hlast] at hx
      simp at hx hy
      subst hx
      subst hy
      simpa using h

theorem threadsAux_chain_boundary (g : Int) :
    ∀ (rest : List ChatMessage) (prev : ChatMessage) (cur : List ChatMessage),
      cur.getLast? = some prev →
      List.Chain' (threadBoundary g) (threadsAux g prev cur rest) := by
  intro rest
  induction rest with
  | nil => intro prev cur _; simp [threadsAux]
  | cons m rest ih =>
    intro prev cur hlast
    rw [threadsAux]
    by_cases h : gapGT g prev m
    · simp only [h, if_true]
      obtain ⟨th', tl, heq⟩ := threadsAux_first g rest m [m]
      rw [heq]
      apply List.Chain'.cons
      · intro a ha b hb
        rw [hlast] at ha
        simp at ha
        subst ha
        simp at hb
        subst hb
        exact h
      · rw [← heq]
        exact ih m [m] (by simp)
    · simp only [h, if_false]
      exact ih m (cur ++ [m]) (by simp)

/-- The split test reduced to integer arithmetic: over ℚ,
`g < (c - p)/60` is `60*g < c - p`. -/
theorem gapGT_eq_int (g : Int) (prev curr : ChatMessage) :
    gapGT g prev curr
      = decide (60 * g < curr.timestamp - prev.timestamp) := by
  simp only [gapGT]
  rw [decide_eq_decide]
  rw [lt_div_iff₀ (by norm_num : (0:ℚ) < 60)]
  constructor <;> intro h
  · have h2 : ((60 * g : ℤ) : ℚ) < ((curr.timestamp - prev.timestamp : ℤ) : ℚ) := by
      push_cast
      linarith
    exact_mod_cast h2
  · have h2 : ((60 * g : ℤ) : ℚ) < ((curr.timestamp - prev.timestamp : ℤ) : ℚ) := by
      exact_mod_cast h
    push_cast at h2
    linarith

/-- C7: conversation segmentation is by contiguous runs split exactly at
gaps strictly above the threshold (within a thread every consecutive gap is
≤ the threshold, across a boundary it is >); an empty session yields no
thread and a singleton one thread; the `[0, 100, 3000]`/30-minute example
yields `[[0,100],[3000]]`, and a gap of exactly 30 minutes (1800 s) stays in
one thread. -/
theorem threads_characterization :
    (∀ (s : ChatSession) (g : Int),
      (s.messages = [] → s.get_conversation_threads g = [])
      ∧ (∀ m, s.messages = [m] → s.get_conversation_threads g = [[m]])
      ∧ (∀ th ∈ s.get_conversation_threads g,
          List.Chain' (fun a b => gapGT g a b = false) th)
      ∧ List.Chain' (threadBoundary g) (s.get_conversation_threads g))
    ∧ gapGT 30 (exMsg 0) (exMsg 100) = false
    ∧ gapGT 30 (exMsg 100) (exMsg 3000) = true
    ∧ (ChatSession.mkSession exVer exMeta []
        [exMsg 0, exMsg 100, exMsg 3000]).get_conversation_threads 30
      = [[exMsg 0, exMsg 100], [exMsg 3000]]
    ∧ (ChatSession.mkSession exVer exMeta []
        [exMsg 0, exMsg 1800]).get_conversation_threads 30
      = [[exMsg 0, exMsg 1800]] := by
  refine ⟨?_, by rw [gapGT_eq_int]; decide, by rw [gapGT_eq_int]; decide, ?_, ?_⟩
  · intro s g
    refine ⟨?_, ?_, ?_, ?_⟩
    · intro h
      simp [ChatSession.get_conversation_threads, h]
    · intro m h
      simp [ChatSession.get_conversation_threads, h, threadsAux]
    · intro th hth
      rcases hm : s.messages with _ | ⟨m, rest⟩
      · simp [ChatSession.get_conversation_threads, hm] at hth
      · simp only [ChatSession.get_conversation_threads, hm] at hth
        exact threadsAux_chain_within g rest m [m] (by simp) (by simp) th hth
    · rcases hm : s.messages with _ | ⟨m, rest⟩
      · simp [ChatSession.get_conversation_threads, hm]
      · simp only [ChatSession.get_conversation_threads, hm]
        exact threadsAux_chain_boundary g rest m [m] (by simp)
  · have h3 := mkSession_messages_of_sorted exVer exMeta []
      [exMsg 0, exMsg 100, exMsg 3000] (by decide)
    simp only [ChatSession.get_conversation_threads, h3]
    simp +decide [threadsAux, gapGT_eq_int, exMsg, mkTestMsg]
  · have h3 := mkSession_messages_of_sorted exVer exMeta []
      [exMsg 0, exMsg 1800] (by decide)
    simp only [ChatSession.get_conversation_threads, h3]
    simp +decide [threadsAux, gapGT_eq_int, exMsg, mkTestMsg]

theorem threads_characterization_witness :
    (exSession []).get_conversation_threads 30 = []
    ∧ (exSession [5]).get_conversation_threads 30 = [[exMsg 5]] :=
  ⟨(threads_characterization.1 (exSession []) 30).1 rfl,
   (threads_characterization.1 (exSession [5]) 30).2.1 (exMsg 5) rfl⟩

/-- C10: the threads concatenate (in order) to exactly the session's message
list, every thread is non-empty, and the standalone helper
`split_messages_by_time` computes the same partition. -/
theorem threads_partition (s : ChatSession) (g : Int) :
    (s.get_conversation_threads g).flatten = s.messages
    ∧ (∀ th ∈ s.get_conversation_threads g, th ≠ [])
    ∧ s.get_conversation_threads g = split_messages_by_time s.messages g := by
  rcases hm : s.messages with _ | ⟨m, rest⟩
  · simp [ChatSession.get_conversation_threads, split_messages_by_time, hm]
  · refine ⟨?_, ?_, ?_⟩
    · simp only [ChatSession.get_conversation_threads, hm]
      rw [threadsAux_join]
      simp
    · intro th hth
      simp only [ChatSession.get_conversation_threads, hm] at hth
      exact threadsAux_ne_nil g rest m [m] (by simp) th hth
    · simp only [ChatSession.get_conversation_threads, split_messages_by_time, hm]
      exact threadsAux_eq_splitAux g rest m [m]

theorem threads_partition_witness :
    ((exSession [5]).get_conversation_threads 30).flatten = (exSession [5]).messages
    ∧ [exMsg 5] ≠ ([] : List ChatMessage) :=
  ⟨(threads_partition (exSession [5]) 30).1,
   (threads_partition (exSession [5]) 30).2.1 [exMsg 5] (by decide)⟩

/-- C9: keyword search is substring filtering over the messages, returning a
new sublist (original relative order, no mutation of the session — the model
is pure, and the result is built by `filter` from the untouched message
list); by default both sides are lowercased, with `case_sensitive` matching
exact case.  Concretely: "天气" finds "今天天气不错", "HELLO" finds "hello"
case-insensitively and nothing case-sensitively. -/
theorem keyword_search_correct :
    (∀ (s : ChatSession) (kw : String),
      s.get_messages_by_keyword kw false
        = s.messages.filter (fun m => pyInStr (pyLower kw) (pyLower m.content))
      ∧ s.get_messages_by_keyword kw true
        = s.messages.filter (fun m => pyInStr kw m.content)
      ∧ List.Sublist (s.get_messages_by_keyword kw false) s.messages
      ∧ List.Sublist (s.get_messages_by_keyword kw true) s.messages)
    ∧ kwSession.get_messages_by_keyword "天气" false
        = [mkTestMsg "u1" "今天天气不错" 1]
    ∧ kwSession.get_messages_by_keyword "HELLO" false = [mkTestMsg "u2" "hello" 2]
    ∧ kwSession.get_messages_by_keyword "HELLO" true = [] := by
  refine ⟨?_, by decide, by decide, by decide⟩
  intro s kw
  exact ⟨rfl, rfl, List.filter_sublist _, List.filter_sublist _⟩

theorem senderStep_total (tz : Int) (m : ChatMessage) :
    ∀ acc, statTotal (senderStep tz m acc) = statTotal acc + 1 := by
  intro acc
  induction acc with
  | nil => simp [senderStep, statTotal]
  | cons kv rest ih =>
    obtain ⟨k, st⟩ := kv
    rw [senderStep]
    by_cases h : k = m.sender
    · simp [h, statTotal]
      omega
    · simp only [h, if_false, statTotal, List.map_cons, List.sum_cons] at ih ⊢
      omega

theorem sender_stats_total_aux (tz : Int) :
    ∀ (msgs : List ChatMessage) (acc : List (String × SenderStat)),
      statTotal (msgs.foldl (fun a m => senderStep tz m a) acc)
        = statTotal acc + msgs.length := by
  intro msgs
  induction msgs with
  | nil => intro acc; simp
  | cons m rest ih =>
    intro acc
    simp only [List.foldl_cons, List.length_cons, ih, senderStep_total]
    omega

/-- C8: the aggregate statistics report the message count, the distinct
sender count, the first/last date range (absent — with all counts zero and
no error — on an empty session), the per-label type counts, the timeline and
the per-sender stats, whose counts always sum to the total; for the fixture
with three messages from two senders the counts are 3, 2 and sum 3. -/
theorem statistics_correct :
    (∀ (tz : Int) (s : ChatSession),
      (s.get_statistics tz).total_messages = s.messages.length
      ∧ (s.get_statistics tz).unique_senders
          = (s.messages.map (fun m => m.sender)).dedup.length
      ∧ (s.messages = [] → s.get_statistics tz
          = { total_messages := 0, unique_senders := 0, date_range := Option.none,
              message_types := [], timeline := [], sender_stats := Option.none })
      ∧ (∀ m0 rest, s.messages = m0 :: rest →
          (s.get_statistics tz).date_range
            = some (m0.datetime_str tz, (s.messages.getLast?.getD m0).datetime_str tz)
          ∧ (s.get_statistics tz).message_types
              = s.messages.foldl (fun acc m => bumpCount m.typeName acc) []
          ∧ (s.get_statistics tz).timeline = s.get_timeline tz
          ∧ (s.get_statistics tz).sender_stats = some (s.get_sender_stats tz))
      ∧ statTotal (s.get_sender_stats tz) = s.messages.length)
    ∧ (statSession.get_statistics 0).total_messages = 3
    ∧ (statSession.get_statistics 0).unique_senders = 2
    ∧ statTotal (statSession.get_sender_stats 0) = 3 := by
  refine ⟨?_, by decide, by decide, by decide⟩
  intro tz s
  refine ⟨?_, ?_, ?_, ?_, ?_⟩
  · rcases hm : s.messages with _ | ⟨m0, rest⟩
    · simp [ChatSession.get_statistics, hm]
    · simp [ChatSession.get_statistics, hm]
  · rcases hm : s.messages with _ | ⟨m0, rest⟩
    · simp [ChatSession.get_statistics, hm]
    · simp [ChatSession.get_statistics, hm]
  · intro hm
    simp [ChatSession.get_statistics, hm]
  · intro m0 rest hm
    refine ⟨?_, ?_, ?_, ?_⟩ <;> simp [ChatSession.get_statistics, hm]
  · have h := sender_stats_total_aux tz s.messages []
    simpa [ChatSession.get_sender_stats, statTotal] using h

theorem statistics_correct_witness :
    (statSession.get_statistics 0).date_range
        = some ((mkTestMsg "u1" "a" 1).datetime_str 0,
            (mkTestMsg "u2" "c" 3).datetime_str 0)
    ∧ (statSession.get_statistics 0).sender_stats
        = some (statSession.get_sender_stats 0)
    ∧ statSession.get_statistics 0
        ≠ { total_messages := 0, unique_senders := 0, date_range := Option.none,
            message_types := [], timeline := [], sender_stats := Option.none } := by
  have h := (statistics_correct.1 0 statSession).2.2.2.1
    (mkTestMsg "u1" "a" 1) [mkTestMsg "u1" "b" 2, mkTestMsg "u2" "c" 3] rfl
  refine ⟨?_, h.2.2.2, ?_⟩
  · rw [h.1]
    decide
  · intro hEq
    have h1 := (statistics_correct.1 0 statSession).1
    rw [hEq] at h1
    simp [statSession] at h1

/-!  Round-trip lemmas (claim C1). -/

theorem except_bind_ok {ε α β : Type} (a : α) (f : α → Except ε β) :
    (Except.ok a : Except ε α) >>= f = f a := rfl

theorem except_bind_error {ε α β : Type} (e : ε) (f : α → Except ε β) :
    (Except.error e : Except ε α) >>= f = Except.error e := rfl

theorem version_rt (v : ChatLabVersion) :
    ChatLabVersion.from_dict v.to_dict = Except.ok v := rfl

theorem meta_rt (m : ChatMeta) (h : m.optOK) :
    ChatMeta.from_dict m.to_dict = Except.ok m := by
  obtain ⟨h1, h2⟩ := h
  obtain ⟨name, platform, ty, owner, avatar, description⟩ := m
  simp only [ChatMeta.optOK, optStrOK] at h1 h2
  rcases avatar with _ | av <;> rcases description with _ | de <;>
    simp_all [ChatMeta.to_dict, ChatMeta.from_dict, getStrD, getOptStr, PyVal.dget,
      PyVal.lookup, truthyOptStr, PyVal.isDict, except_bind_ok]

theorem member_rt (mem : ChatMember) (h : mem.optOK) :
    ChatMember.from_dict mem.to_dict = Except.ok mem := by
  obtain ⟨h1, h2, h3⟩ := h
  obtain ⟨pid, an, role, avatar, remark⟩ := mem
  simp only [ChatMember.optOK, optStrOK] at h1 h2 h3
  rcases role with _ | ro <;> rcases avatar with _ | av <;> rcases remark with _ | re <;>
    simp_all [ChatMember.to_dict, ChatMember.from_dict, getStrD, getOptStr, PyVal.dget,
      PyVal.lookup, truthyOptStr, PyVal.isDict, except_bind_ok]

theorem message_rt (tz : Int) (m : ChatMessage) (h : m.optOK)
    (hts : tsOK tz m.timestamp) :
    ChatMessage.from_dict tz m.to_dict = Except.ok m := by
  obtain ⟨sender, an, ts, ty, content, pmid, reply⟩ := m
  simp only [ChatMessage.optOK, optStrOK] at h
  simp only at hts
  rcases reply with _ | r <;>
    simp_all [ChatMessage.to_dict, ChatMessage.from_dict, getStrD, getIntD, getOptStr,
      PyVal.dget, PyVal.lookup, truthyOptStr, PyVal.isDict, ChatMessage.mkChecked,
      except_bind_ok]

theorem mapE_map {α β : Type} (g : α → β) (f : β → Except PyErr α)
    (xs : List α) (h : ∀ x ∈ xs, f (g x) = Except.ok x) :
    ChatSession.mapE f (xs.map g) = Except.ok xs := by
  induction xs with
  | nil => rfl
  | cons x xs ih =>
    rw [List.map_cons, ChatSession.mapE, h x (by simp), except_bind_ok,
      ih (fun y hy => h y (by simp [hy])), except_bind_ok]

/-- C1 (amended): decoding the encoding of a canonical session — messages in
timestamp order as `__post_init__` leaves them, timestamps in the
constructible `datetime` range, and every optional field (`meta.avatar`,
`meta.description`, member `role`/`avatar`/`remark`, message `replyTo`)
either absent or non-empty — yields an equal session, all fields and message
order preserved (timestamps are integers, exact).  Empty-string optional
fields are excluded: the encoder's truthiness test drops them
(see the counterexample). -/
theorem session_roundtrip (tz : Int) (s : ChatSession)
    (hcanon : s.messages.Pairwise (fun a b => a.timestamp ≤ b.timestamp))
    (hts : ∀ m ∈ s.messages, tsOK tz m.timestamp)
    (hopt : s.optOK) :
    ChatSession.from_dict tz s.to_dict = Except.ok s := by
  obtain ⟨hm, hmem, hmsg⟩ := hopt
  obtain ⟨cl, mt, mems, msgs⟩ := s
  simp only at hm hmem hmsg hcanon hts
  have hver := version_rt cl
  have hmeta := meta_rt mt hm
  have hmembers := mapE_map ChatMember.to_dict ChatMember.from_dict mems
    (fun x hx => member_rt x (hmem x hx))
  have hmessages := mapE_map ChatMessage.to_dict (ChatMessage.from_dict tz) msgs
    (fun x hx => message_rt tz x (hmsg x hx) (hts x hx))
  simp only [ChatSession.to_dict, ChatSession.from_dict, PyVal.isDict, if_true,
    ChatSession.getDictD, ChatSession.getListD, PyVal.dget, PyVal.lookup]
  simp only [String.reduceEq, if_false, if_true, reduceIte]
  rw [hver, except_bind_ok, hmeta, except_bind_ok, except_bind_ok, hmembers,
    except_bind_ok, except_bind_ok, hmessages, except_bind_ok]
  have hsorted : (ChatSession.mkSession cl mt mems msgs).messages = msgs :=
    mkSession_messages_of_sorted cl mt mems msgs hcanon
  have : ChatSession.mkSession cl mt mems msgs = ChatSession.mk cl mt mems msgs := by
    rw [ChatSession.mkSession.eq_def]
    rw [show msgs.mergeSort tsLE = msgs from hsorted]
  rw [this]

theorem session_roundtrip_witness :
    ChatSession.from_dict 0 witSession.to_dict = Except.ok witSession :=
  session_roundtrip 0 witSession (by decide) (by decide)
    (by
      simp only [ChatSession.optOK, ChatMeta.optOK, ChatMember.optOK,
        ChatMessage.optOK, optStrOK]
      decide)

/-- C1 counterexample: a canonical session whose `meta.avatar` is the empty
string does not round-trip — the encoder drops the falsy field and the
decoder returns `None` in its place. -/
theorem roundtrip_drops_empty_avatar :
    sessEmptyAvatar = ChatSession.mkSession exVer metaEmptyAvatar [] []
    ∧ sessEmptyAvatar.meta.avatar = some ""
    ∧ ChatSession.from_dict 0 sessEmptyAvatar.to_dict = Except.ok sessEmptyAvatarRT
    ∧ sessEmptyAvatarRT.meta.avatar = Option.none
    ∧ sessEmptyAvatarRT ≠ sessEmptyAvatar := by
  refine ⟨?_, rfl, rfl, rfl, ?_⟩
  · simp [ChatSession.mkSession, sessEmptyAvatar]
  · intro hEq
    have h2 := congrArg (fun s => s.meta.avatar) hEq
    simp [sessEmptyAvatarRT, sessEmptyAvatar, metaEmptyAvatar,
      ChatSession.mkSession] at h2

/-!  `from_dict` never raises a `ValueError`: the `FormatError` of
`JSONParser.parse` can only come from the strategy chain (claim C3). -/

theorem bind_ne_ve {α β : Type} {x : Except PyErr α} {f : α → Except PyErr β}
    {msg : String}
    (hx : ∀ m, x ≠ Except.error (PyErr.valueError m))
    (hf : ∀ a m, f a ≠ Except.error (PyErr.valueError m)) :
    x >>= f ≠ Except.error (PyErr.valueError msg) := by
  rcases x with e | a
  · rw [except_bind_error]
    intro hc
    injection hc with h
    exact hx msg (by rw [h])
  · rw [except_bind_ok]
    exact hf a msg

theorem getStrD_not_ve (d : PyVal) (k dflt : String) (msg : String) :
    getStrD d k dflt ≠ Except.error (PyErr.valueError msg) := by
  rcases hd : d.dget k with _ | v
  · simp [getStrD, hd]
  · cases v <;> simp [getStrD, hd]

theorem getIntD_not_ve (d : PyVal) (k : String) (dflt : Int) (msg : String) :
    getIntD d k dflt ≠ Except.error (PyErr.valueError msg) := by
  rcases hd : d.dget k with _ | v
  · simp [getIntD, hd]
  · cases v <;> simp [getIntD, hd]

theorem getOptStr_not_ve (d : PyVal) (k : String) (msg : String) :
    getOptStr d k ≠ Except.error (PyErr.valueError msg) := by
  rcases hd : d.dget k with _ | v
  · simp [getOptStr, hd]
  · cases v <;> simp [getOptStr, hd]

theorem getListD_not_ve (d : PyVal) (k : String) (msg : String) :
    ChatSession.getListD d k ≠ Except.error (PyErr.valueError msg) := by
  rcases hd : d.dget k with _ | v
  · simp [ChatSession.getListD, hd]
  · cases v <;> simp [ChatSession.getListD, hd]

theorem mkChecked_not_ve (tz : Int) (m : ChatMessage) (msg : String) :
    ChatMessage.mkChecked tz m ≠ Except.error (PyErr.valueError msg) := by
  unfold ChatMessage.mkChecked
  split <;> simp

theorem version_from_dict_not_ve (d : PyVal) (msg : String) :
    ChatLabVersion.from_dict d ≠ Except.error (PyErr.valueError msg) := by
  unfold ChatLabVersion.from_dict
  split
  · exact bind_ne_ve (getStrD_not_ve d "version" "0.0.1")
      (fun v1 m1 => bind_ne_ve (getStrD_not_ve d "exportedAt" "unknown"
          |> fun _ => getIntD_not_ve d "exportedAt" 0)
        (fun v2 m2 => bind_ne_ve (getStrD_not_ve d "generator" "unknown")
          (fun v3 m3 => by simp)))
  · simp

theorem meta_from_dict_not_ve (d : PyVal) (msg : String) :
    ChatMeta.from_dict d ≠ Except.error (PyErr.valueError msg) := by
  unfold ChatMeta.from_dict
  split
  · refine bind_ne_ve (getStrD_not_ve d "name" "Unknown") (fun a1 m1 => ?_)
    refine bind_ne_ve (getStrD_not_ve d "platform" "unknown") (fun a2 m2 => ?_)
    refine bind_ne_ve (getStrD_not_ve d "type" "private") (fun a3 m3 => ?_)
    refine bind_ne_ve (getStrD_not_ve d "ownerId" "") (fun a4 m4 => ?_)
    refine bind_ne_ve (getOptStr_not_ve d "avatar") (fun a5 m5 => ?_)
    exact bind_ne_ve (getOptStr_not_ve d "description") (fun a6 m6 => by simp)
  · simp

theorem member_from_dict_not_ve (d : PyVal) (msg : String) :
    ChatMember.from_dict d ≠ Except.error (PyErr.valueError msg) := by
  unfold ChatMember.from_dict
  split
  · refine bind_ne_ve (getStrD_not_ve d "platformId" "") (fun a1 m1 => ?_)
    refine bind_ne_ve (getStrD_not_ve d "accountName" "") (fun a2 m2 => ?_)
    refine bind_ne_ve (getOptStr_not_ve d "role") (fun a3 m3 => ?_)
    refine bind_ne_ve (getOptStr_not_ve d "avatar") (fun a4 m4 => ?_)
    exact bind_ne_ve (getOptStr_not_ve d "remark") (fun a5 m5 => by simp)
  · simp

theorem message_from_dict_not_ve (tz : Int) (d : PyVal) (msg : String) :
    ChatMessage.from_dict tz d ≠ Except.error (PyErr.valueError msg) := by
  unfold ChatMessage.from_dict
  split
  · refine bind_ne_ve (getStrD_not_ve d "sender" "") (fun a1 m1 => ?_)
    refine bind_ne_ve (getStrD_not_ve d "accountName" "") (fun a2 m2 => ?_)
    refine bind_ne_ve (getIntD_not_ve d "timestamp" 0) (fun a3 m3 => ?_)
    refine bind_ne_ve (getIntD_not_ve d "type" 0) (fun a4 m4 => ?_)
    refine bind_ne_ve (getStrD_not_ve d "content" "") (fun a5 m5 => ?_)
    refine bind_ne_ve (getStrD_not_ve d "platformMessageId" "") (fun a6 m6 => ?_)
    refine bind_ne_ve (getOptStr_not_ve d "replyTo") (fun a7 m7 => ?_)
    exact fun hc => mkChecked_not_ve tz _ m7 hc
  · simp

theorem mapE_not_ve {α β : Type} (f : α → Except PyErr β)
    (hf : ∀ a m, f a ≠ Except.error (PyErr.valueError m)) :
    ∀ (xs : List α) (msg : String),
      ChatSession.mapE f xs ≠ Except.error (PyErr.valueError msg) := by
  intro xs
  induction xs with
  | nil => intro msg; simp [ChatSession.mapE]
  | cons x xs ih =>
    intro msg
    rw [ChatSession.mapE]
    exact bind_ne_ve (hf x)
      (fun y m => bind_ne_ve (fun m2 => ih m2) (fun ys m2 => by simp))

theorem session_from_dict_not_ve (tz : Int) (d : PyVal) (msg : String) :
    ChatSession.from_dict tz d ≠ Except.error (PyErr.valueError msg) := by
  unfold ChatSession.from_dict
  split
  · refine bind_ne_ve (version_from_dict_not_ve _) (fun a1 m1 => ?_)
    refine bind_ne_ve (meta_from_dict_not_ve _) (fun a2 m2 => ?_)
    refine bind_ne_ve (getListD_not_ve d "members") (fun a3 m3 => ?_)
    refine bind_ne_ve (mapE_not_ve _ member_from_dict_not_ve a3) (fun a4 m4 => ?_)
    refine bind_ne_ve (getListD_not_ve d "messages") (fun a5 m5 => ?_)
    refine bind_ne_ve (mapE_not_ve _ (message_from_dict_not_ve tz) a5)
      (fun a6 m6 => by simp)
  · simp

theorem parseChain_none_iff (t : String) :
    parseChain t = Option.none ↔
      noneCollapse (json_loads t) = Option.none
      ∧ noneCollapse (literal_eval t) = Option.none
      ∧ noneCollapse (_try_fix_and_parse t) = Option.none := by
  unfold parseChain
  rcases h1 : noneCollapse (json_loads t) with _ | d1
  · rcases h2 : noneCollapse (literal_eval t) with _ | d2
    · simp
    · simp
  · simp

/-- C3 (amended): the parser tries (1) strict JSON, (2) relaxed Python
literal, (3) trailing-comma repair plus literal retry, in that order; the
first strategy producing a value *other than `None`* wins (the source's
`if data is None` sentinel conflates a successful parse of `null`/`None`
with failure — see the counterexample), and a `FormatError` with the
strategy-naming message is raised exactly when every strategy fails or
yields `None`.  The single-quoted `\x7b\'a\': 1, \'b\': True\x7d` input
parses into exactly the structure of its strict-JSON counterpart. -/
theorem parse_chain_amended (tz : Int) (text : String) :
    (∀ d, noneCollapse (json_loads (pyStrip text)) = some d →
        JSONParser.parse tz text = ChatSession.from_dict tz d)
    ∧ (noneCollapse (json_loads (pyStrip text)) = Option.none →
        ∀ d, noneCollapse (literal_eval (pyStrip text)) = some d →
        JSONParser.parse tz text = ChatSession.from_dict tz d)
    ∧ (noneCollapse (json_loads (pyStrip text)) = Option.none →
        noneCollapse (literal_eval (pyStrip text)) = Option.none →
        ∀ d, noneCollapse (_try_fix_and_parse (pyStrip text)) = some d →
        JSONParser.parse tz text = ChatSession.from_dict tz d)
    ∧ (JSONParser.parse tz text = Except.error (PyErr.valueError parseFormatErrorMsg)
        ↔ noneCollapse (json_loads (pyStrip text)) = Option.none
          ∧ noneCollapse (literal_eval (pyStrip text)) = Option.none
          ∧ noneCollapse (_try_fix_and_parse (pyStrip text)) = Option.none)
    ∧ literal_eval exLitText = json_loads exJsonText
    ∧ literal_eval exLitText
        = some (PyVal.dict [("a", PyVal.int 1), ("b", PyVal.bool true)])
    ∧ (JSONParser.parse tz exLitText).isOk = true := by
  refine ⟨?_, ?_, ?_, ?_, rfl, rfl, rfl⟩
  · intro d hd
    simp [JSONParser.parse, parseChain, hd]
  · intro h1 d hd
    simp [JSONParser.parse, parseChain, h1, hd]
  · intro h1 h2 d hd
    simp [JSONParser.parse, parseChain, h1, h2, hd]
  · constructor
    · intro hp
      rw [← parseChain_none_iff]
      rcases hc : parseChain (pyStrip text) with _ | d
      · rfl
      · exfalso
        have heq : JSONParser.parse tz text = ChatSession.from_dict tz d := by
          simp [JSONParser.parse, hc]
        rw [heq] at hp
        exact session_from_dict_not_ve tz d _ hp
    · intro h
      have hc : parseChain (pyStrip text) = Option.none :=
        (parseChain_none_iff _).mpr h
      simp [JSONParser.parse, hc]

/-- C3 counterexample: on the input `"null"`, the strict-JSON strategy
*succeeds* (returning `None`), yet the parser raises the all-strategies
`FormatError` — "first success wins" is false as stated. -/
theorem parse_null_formatError_despite_success :
    json_loads "null" = some PyVal.none
    ∧ JSONParser.parse 0 "null"
        = Except.error (PyErr.valueError parseFormatErrorMsg) :=
  ⟨rfl, rfl⟩

theorem parse_chain_amended_witness :
    JSONParser.parse 0 exLitText
      = ChatSession.from_dict 0 (PyVal.dict [("a", PyVal.int 1), ("b", PyVal.bool true)]) :=
  (parse_chain_amended 0 exLitText).2.1 rfl
    (PyVal.dict [("a", PyVal.int 1), ("b", PyVal.bool true)]) rfl

theorem json_loads_empty : json_loads "" = Option.none := rfl

theorem getLast?_or_cons {α : Type} (a : α) (xs : List α) (h0 : Option α) :
    ((a :: xs).getLast?).or h0 = (xs.getLast?).or (some a) := by
  cases xs with
  | nil => rfl
  | cons b t =>
    rcases hx : (b :: t).getLast? with _ | x
    · simp at hx
    · simp [List.getLast?_cons_cons, hx, Option.or]

theorem jsonl_scan (lines : List (List Char)) :
    (∀ l ∈ lines, (json_loads (pyStrip (String.mk l))).all PyVal.isDict = true) →
    ∀ (h0 : Option PyVal) (mem0 msg0 : List PyVal),
      List.foldlM jsonlStep (h0, mem0, msg0) lines
        = Except.ok
            (((lines.filterMap (taggedAs "header")).getLast?).or h0,
             mem0 ++ lines.filterMap (taggedAs "member"),
             msg0 ++ lines.filterMap (taggedAs "message")) := by
  induction lines with
  | nil =>
    intro _ h0 mem0 msg0
    simp only [List.foldlM_nil, List.filterMap_nil, List.getLast?_nil,
      List.append_nil]
    rfl
  | cons l lines ih =>
    intro hd h0 mem0 msg0
    have hdl := hd l (by simp)
    have hdrest := fun x hx => hd x (List.mem_cons_of_mem l hx)
    rw [List.foldlM_cons]
    by_cases he : (pyStrip (String.mk l)).isEmpty
    · have hempty : pyStrip (String.mk l) = "" := (String.isEmpty_iff _).mp he
      rw [show jsonlStep (h0, mem0, msg0) l = Except.ok (h0, mem0, msg0) by
        simp [jsonlStep, he]]
      rw [except_bind_ok, ih hdrest]
      simp [taggedAs, hempty, json_loads_empty, List.filterMap_cons]
    · rcases hj : json_loads (pyStrip (String.mk l)) with _ | obj
      · rw [show jsonlStep (h0, mem0, msg0) l = Except.ok (h0, mem0, msg0) by
          simp [jsonlStep, he, hj]]
        rw [except_bind_ok, ih hdrest]
        simp [taggedAs, hj, List.filterMap_cons]
      · rw [hj] at hdl
        have hdict : obj.isDict = true := by simpa using hdl
        rcases ht : obj.dget "_type" with _ | tv
        · rw [show jsonlStep (h0, mem0, msg0) l = Except.ok (h0, mem0, msg0) by
            simp [jsonlStep, he, hj, hdict, ht]]
          rw [except_bind_ok, ih hdrest]
          simp [taggedAs, hj, ht, List.filterMap_cons]
        · rcases tv with _ | b | n | q | t | xs | kvs
          · rw [show jsonlStep (h0, mem0, msg0) l = Except.ok (h0, mem0, msg0) by
              simp [jsonlStep, he, hj, hdict, ht]]
            rw [except_bind_ok, ih hdrest]
            simp [taggedAs, hj, ht, List.filterMap_cons]
          · rw [show jsonlStep (h0, mem0, msg0) l = Except.ok (h0, mem0, msg0) by
              simp [jsonlStep, he, hj, hdict, ht]]
            rw [except_bind_ok, ih hdrest]
            simp [taggedAs, hj, ht, List.filterMap_cons]
          · rw [show jsonlStep (h0, mem0, msg0) l = Except.ok (h0, mem0, msg0) by
              simp [jsonlStep, he, hj, hdict, ht]]
            rw [except_bind_ok, ih hdrest]
            simp [taggedAs, hj, ht, List.filterMap_cons]
          · rw [show jsonlStep (h0, mem0, msg0) l = Except.ok (h0, mem0, msg0) by
              simp [jsonlStep, he, hj, hdict, ht]]
            rw [except_bind_ok, ih hdrest]
            simp [taggedAs, hj, ht, List.filterMap_cons]
          ·
            by_cases h1 : t = "header"
            · subst h1
              rw [show jsonlStep (h0, mem0, msg0) l = Except.ok (some obj, mem0, msg0) by
                simp [jsonlStep, he, hj, hdict, ht]]
              rw [except_bind_ok, ih hdrest]
              simp only [taggedAs, hj, ht, List.filterMap_cons, if_true,
                show (("header" : String) = "header") = True by simp,
                show (("header" : String) = "member") = False by decide,
                show (("header" : String) = "message") = False by decide,
                if_false]
              rw [getLast?_or_cons]
            · by_cases h2 : t = "member"
              · subst h2
                rw [show jsonlStep (h0, mem0, msg0) l
                    = Except.ok (h0, mem0 ++ [obj], msg0) by
                  simp [jsonlStep, he, hj, hdict, ht]]
                rw [except_bind_ok, ih hdrest]
                simp [taggedAs, hj, ht, List.filterMap_cons,
                  show ¬("member" = "header") by decide,
                  show ¬("member" = "message") by decide]
              · by_cases h3 : t = "message"
                · subst h3
                  rw [show jsonlStep (h0, mem0, msg0) l
                      = Except.ok (h0, mem0, msg0 ++ [obj]) by
                    simp [jsonlStep, he, hj, hdict, ht]]
                  rw [except_bind_ok, ih hdrest]
                  simp [taggedAs, hj, ht, List.filterMap_cons,
                    show ¬("message" = "header") by decide,
                    show ¬("message" = "member") by decide]
                · rw [show jsonlStep (h0, mem0, msg0) l = Except.ok (h0, mem0, msg0) by
                    simp [jsonlStep, he, hj, hdict, ht, h1, h2, h3]]
                  rw [except_bind_ok, ih hdrest]
                  simp [taggedAs, hj, ht, List.filterMap_cons, h1, h2, h3]
          · rw [show jsonlStep (h0, mem0, msg0) l = Except.ok (h0, mem0, msg0) by
              simp [jsonlStep, he, hj, hdict, ht]]
            rw [except_bind_ok, ih hdrest]
            simp [taggedAs, hj, ht, List.filterMap_cons]
          · rw [show jsonlStep (h0, mem0, msg0) l = Except.ok (h0, mem0, msg0) by
              simp [jsonlStep, he, hj, hdict, ht]]
            rw [except_bind_ok, ih hdrest]
            simp [taggedAs, hj, ht, List.filterMap_cons]


theorem dget_dict (kvs : List (String × PyVal)) (k : String) :
    PyVal.dget (PyVal.dict kvs) k = PyVal.lookup kvs k := rfl

theorem lookup_cons_hit (k : String) (v : PyVal) (rest : List (String × PyVal)) :
    PyVal.lookup ((k, v) :: rest) k = some v := by
  simp [PyVal.lookup]

theorem lookup_cons_miss (k k' : String) (v : PyVal) (rest : List (String × PyVal))
    (h : ¬ k' = k) : PyVal.lookup ((k', v) :: rest) k = PyVal.lookup rest k := by
  simp [PyVal.lookup, h]

/-- C4 (amended): in the JSON-Lines parser, a line that is not valid strict
JSON is skipped without aborting, and an object line without a recognized
`_type` tag is ignored; provided every line that does parse is a JSON
*object* (a valid non-object line instead aborts the parse with an
`AttributeError` at `obj.get` — see the counterexample), the resulting
session is built from exactly the member and message lines that parsed, in
order (messages then canonically sorted), with the last header line
supplying version and meta; and with no header line the parse fails with
the header `FormatError`. -/
theorem parse_jsonl_amended (tz : Int) (src : String)
    (hd : ∀ l ∈ pySplitlines (pyStrip src),
        (json_loads (pyStrip (String.mk l))).all PyVal.isDict = true) :
    ((pySplitlines (pyStrip src)).filterMap (taggedAs "header") = [] →
      JSONParser.parse_jsonl tz src = Except.error (PyErr.valueError jsonlHeaderErrorMsg))
    ∧ (∀ h : PyVal,
        ((pySplitlines (pyStrip src)).filterMap (taggedAs "header")).getLast? = some h →
        JSONParser.parse_jsonl tz src
          = ChatSession.from_dict tz (PyVal.dict
              [("chatlab", ChatSession.getDictD h "chatlab"),
               ("meta", ChatSession.getDictD h "meta"),
               ("members", PyVal.list
                  ((pySplitlines (pyStrip src)).filterMap (taggedAs "member"))),
               ("messages", PyVal.list
                  ((pySplitlines (pyStrip src)).filterMap (taggedAs "message")))]))
    ∧ (∀ (h : PyVal) (cl : ChatLabVersion) (mt : ChatMeta)
          (mems : List ChatMember) (msgs : List ChatMessage),
        ((pySplitlines (pyStrip src)).filterMap (taggedAs "header")).getLast? = some h →
        ChatLabVersion.from_dict (ChatSession.getDictD h "chatlab") = Except.ok cl →
        ChatMeta.from_dict (ChatSession.getDictD h "meta") = Except.ok mt →
        ChatSession.mapE ChatMember.from_dict
            ((pySplitlines (pyStrip src)).filterMap (taggedAs "member"))
          = Except.ok mems →
        ChatSession.mapE (ChatMessage.from_dict tz)
            ((pySplitlines (pyStrip src)).filterMap (taggedAs "message"))
          = Except.ok msgs →
        JSONParser.parse_jsonl tz src
          = Except.ok (ChatSession.mkSession cl mt mems msgs)) := by
  have hscan := jsonl_scan (pySplitlines (pyStrip src)) hd Option.none [] []
  refine ⟨?_, ?_, ?_⟩
  · intro hnone
    rw [hnone] at hscan
    simp only [List.getLast?_nil, Option.or, List.nil_append] at hscan
    simp only [JSONParser.parse_jsonl]
    rw [hscan, except_bind_ok]
  · intro h hlast
    rw [hlast] at hscan
    simp only [Option.or, List.nil_append] at hscan
    simp only [JSONParser.parse_jsonl]
    rw [hscan, except_bind_ok]
  · intro h cl mt mems msgs hlast h1 h2 h3 h4
    rw [hlast] at hscan
    simp only [Option.or, List.nil_append] at hscan
    simp only [JSONParser.parse_jsonl]
    rw [hscan, except_bind_ok]
    simp only [ChatSession.getDictD] at h1 h2
    simp [ChatSession.from_dict, PyVal.isDict, ChatSession.getDictD,
      ChatSession.getListD, dget_dict, lookup_cons_hit, lookup_cons_miss,
      except_bind_ok, h1, h2, h3, h4]

set_option maxRecDepth 40000 in
/-- C4 counterexample: a line holding the valid strict-JSON value `42` —
not an object, so it has no `_type` tag — is not skipped: it aborts the
whole parse with an `AttributeError`, while the same document without that
line parses fine. -/
theorem parse_jsonl_aborts_on_nonobject_line :
    JSONParser.parse_jsonl 0 jlNonObjectDoc = Except.error PyErr.attributeError
    ∧ (JSONParser.parse_jsonl 0 (jlHeaderLine ++ "\n" ++ jlMessageLine)).isOk = true :=
  ⟨rfl, rfl⟩

set_option maxRecDepth 40000 in
theorem parse_jsonl_amended_witness :
    JSONParser.parse_jsonl 0 jlGoodDoc
      = Except.ok (ChatSession.mkSession exVer exMeta
          [{ platform_id := "u1", account_name := "Alice" }]
          [{ sender := "u1", account_name := "Alice", timestamp := 100, type := 0,
             content := "hi", platform_message_id := "m1" }]) :=
  (parse_jsonl_amended 0 jlGoodDoc (by decide)).2.2
    (PyVal.dict [("_type", PyVal.str "header"),
      ("chatlab", PyVal.dict [("version", PyVal.str "0.0.1"),
        ("exportedAt", PyVal.int 7), ("generator", PyVal.str "test")]),
      ("meta", PyVal.dict [("name", PyVal.str "chat"), ("platform", PyVal.str "p"),
        ("type", PyVal.str "private"), ("ownerId", PyVal.str "o")])])
    exVer exMeta
    [{ platform_id := "u1", account_name := "Alice" }]
    [{ sender := "u1", account_name := "Alice", timestamp := 100, type := 0,
       content := "hi", platform_message_id := "m1" }]
    rfl rfl rfl rfl rfl

/-- C5 (amended): a CSV row's message type defaults to 0 when the type cell
is missing or *empty*; a non-empty cell is passed to `int()`, and when it is
not an integer literal the resulting `ValueError` is not caught — it
propagates out of the row parse and aborts the whole CSV parse (see the
counterexample), contradicting the claim's no-row-level-error policy.  Only
the timestamp parse is guarded by `try/except`. -/
theorem csv_type_default_amended (tz : Int) (cmap row : List (String × String))
    (idx : Nat) :
    (CSVParser.cget row ((CSVParser.cget cmap "type").getD "type") = Option.none →
      ∀ m, CSVParser._parse_row tz cmap row idx = Except.ok m → m.type = 0)
    ∧ (CSVParser.cget row ((CSVParser.cget cmap "type").getD "type") = some "" →
      ∀ m, CSVParser._parse_row tz cmap row idx = Except.ok m → m.type = 0)
    ∧ (∀ v, CSVParser.cget row ((CSVParser.cget cmap "type").getD "type") = some v →
        v ≠ "" → pyIntParse v = Option.none →
        CSVParser._parse_row tz cmap row idx
          = Except.error (PyErr.valueError ("invalid literal for int: " ++ v)))
    ∧ (∀ v n, CSVParser.cget row ((CSVParser.cget cmap "type").getD "type") = some v →
        v ≠ "" → pyIntParse v = some n →
        ∀ m, CSVParser._parse_row tz cmap row idx = Except.ok m → m.type = n) := by
  refine ⟨?_, ?_, ?_, ?_⟩
  · intro hnone m hm
    simp only [CSVParser._parse_row, hnone] at hm
    rw [except_bind_ok] at hm
    rcases hpt : CSVParser._parse_timestamp tz
        ((CSVParser.cget row ((CSVParser.cget cmap "time").getD "time")).getD "")
      with _ | t0 <;>
      simp only [hpt] at hm <;>
      unfold ChatMessage.mkChecked at hm <;>
      split at hm <;>
      first
      | (injection hm with h2; rw [← h2])
      | exact absurd hm (by simp)
  · intro hempty m hm
    simp only [CSVParser._parse_row, hempty] at hm
    simp only [if_true] at hm
    rw [except_bind_ok] at hm
    rcases hpt : CSVParser._parse_timestamp tz
        ((CSVParser.cget row ((CSVParser.cget cmap "time").getD "time")).getD "")
      with _ | t0 <;>
      simp only [hpt] at hm <;>
      unfold ChatMessage.mkChecked at hm <;>
      split at hm <;>
      first
      | (injection hm with h2; rw [← h2])
      | exact absurd hm (by simp)
  · intro v hv hne hparse
    simp only [CSVParser._parse_row, hv]
    rw [if_neg hne]
    simp only [hparse]
    rw [except_bind_error]
  · intro v n hv hne hparse m hm
    simp only [CSVParser._parse_row, hv] at hm
    rw [if_neg hne] at hm
    simp only [hparse] at hm
    rw [except_bind_ok] at hm
    rcases hpt : CSVParser._parse_timestamp tz
        ((CSVParser.cget row ((CSVParser.cget cmap "time").getD "time")).getD "")
      with _ | t0 <;>
      simp only [hpt] at hm <;>
      unfold ChatMessage.mkChecked at hm <;>
      split at hm <;>
      first
      | (injection hm with h2; rw [← h2])
      | exact absurd hm (by simp)

/-- C5 counterexample: a row whose `type` cell is `"abc"` makes the whole
`CSVParser.parse` raise `ValueError` (no degraded fallback), while the same
parse with only well-formed rows succeeds. -/
theorem csv_parse_aborts_on_bad_type :
    CSVParser.parse 0 0 [csvRowBadType] "p" "chat" "private" ""
      = Except.error (PyErr.valueError ("invalid literal for int: " ++ "abc"))
    ∧ (CSVParser.parse 0 0 [csvRowGood] "p" "chat" "private" "").isOk = true :=
  ⟨rfl, rfl⟩

theorem csv_type_default_amended_witness :
    ({ sender := "u2", account_name := "u2", timestamp := 200, type := 0,
       content := "y", platform_message_id := "csv_0",
       reply_to := Option.none } : ChatMessage).type = 0
    ∧ CSVParser._parse_row 0 csvCmapFull csvRowBadType 0
        = Except.error (PyErr.valueError ("invalid literal for int: " ++ "abc")) :=
  ⟨(csv_type_default_amended 0 csvCmapFull csvRowGood 0).2.1 rfl
      { sender := "u2", account_name := "u2", timestamp := 200, type := 0,
        content := "y", platform_message_id := "csv_0", reply_to := Option.none }
      rfl,
   (csv_type_default_amended 0 csvCmapFull csvRowBadType 0).2.2.1 "abc" rfl
     (by decide) rfl⟩

